import Mathlib

/-!
# Container creation workflow of the docker client (`api/client/create.go`)
# and the pull-behaviour enumeration (`api/types/image/pull_behavior.go`)

A shallow embedding of `pullImageCustomOut`, `newCIDFile`, `createContainer`
and `CmdCreate`, and of `ParsePullBehavior` / `PullBehavior.String`.

Stateful code is written with explicit state passing.  The remote engine, the
trust resolver and the tag operation are methods of `DockerCli` that live
outside `create.go`; they are arbitrary state transformers over an arbitrary
world type `σ`.  Library functions that `create.go` only calls (`parsers`,
`registry`, `runconfig`, `url`, `json`) are the fields of `Lib`.
Every observable action is appended to a trace of `Event`s.
-/

set_option autoImplicit false

namespace Docker

/-- An error value, identified with the text its `Error()` method returns. -/
abbrev Err := String

namespace strings

/-- Whether `sub` occurs as a contiguous block inside the first list. -/
def hasInfix : List Char → List Char → Bool
  | [], sub => sub.isPrefixOf []
  | c :: s, sub => sub.isPrefixOf (c :: s) || hasInfix s sub

/-- Go `strings.Contains(s, substr)`, on the characters of the two strings. -/
def Contains (s substr : String) : Bool := hasInfix s.data substr.data

end strings

/-! ## `pull_behavior.go` -/

/-- Go `type PullBehavior int`.  The code compares values of the type and does no
arithmetic on them, so the width of `int` plays no part. -/
abbrev PullBehavior := Int

def PullNever : PullBehavior := 0
def PullAlways : PullBehavior := 1
def PullMissing : PullBehavior := 2

/-- Go `ParsePullBehavior`; the second component is the returned error (`none` is `nil`). -/
def ParsePullBehavior (pullVal : String) : PullBehavior × Option Err :=
  if pullVal = "never" then (PullNever, none)
  else if pullVal = "always" then (PullAlways, none)
  else if pullVal = "missing" ∨ pullVal = "" then (PullMissing, none)
  else (PullNever, some ("Invalid pull behavior '" ++ pullVal ++ "'"))

/-- Go `func (p PullBehavior) String() string`. -/
def PullBehavior.String (p : PullBehavior) : String :=
  if p = PullNever then "never"
  else if p = PullAlways then "always"
  else if p = PullMissing then "missing"
  else ""

/-! ## `create.go`: data -/

/-- The part of `runconfig.Config` that `create.go` reads and writes (`Image`);
the remaining fields are carried along in `Rest`. -/
structure Config where
  Image : String
  Rest : String

/-- The part of `runconfig.HostConfig` that `create.go` reads (`ContainerIDFile`). -/
structure HostConfig where
  ContainerIDFile : String
  Rest : String

/-- Go `type createConfig struct`. -/
structure createConfig where
  config : Config
  hostConfig : HostConfig
  cidfile : String
  name : String
  pull : Bool

/-- Go `types.ContainerCreateResponse`. -/
structure ContainerCreateResponse where
  ID : String
  Warnings : List String

/-- The two writers of `DockerCli`: `cli.out` (primary) and `cli.err` (diagnostic). -/
inductive Chan where
  | out
  | err
  deriving DecidableEq, Repr

/-- Library code that `create.go` calls and that is not part of it. -/
structure Lib where
  /-- Go `registry.Reference` -/
  Ref : Type
  /-- Go `*registry.RepositoryInfo` -/
  RepoInfo : Type
  /-- Go `*registry.IndexInfo` -/
  IndexInfo : Type
  /-- Go `cliconfig.AuthConfig` -/
  AuthConfig : Type
  /-- Go `cli.configFile` -/
  ConfigFile : Type
  /-- what `cli.call` sends for the result of `runconfig.MergeConfigs` -/
  Merged : Type
  /-- a response body -/
  Body : Type
  ParseRepositoryTag : String → String × String
  DefaultTag : String
  ParseReference : String → Ref
  HasDigest : Ref → Bool
  ImageName : Ref → String → String
  ParseRepositoryInfo : String → Except Err RepoInfo
  /-- Go `repoInfo.Index` -/
  Index : RepoInfo → IndexInfo
  ResolveAuthConfig : ConfigFile → IndexInfo → AuthConfig
  Marshal : AuthConfig → Except Err String
  Base64 : String → String
  QueryEscape : String → String
  /-- Go `runconfig.MergeConfigs(config, hostConfig)`: the request body made of the two
  configurations -/
  MergeConfigs : Config → HostConfig → Merged
  /-- Go `isTrusted()`: the package level trust switch -/
  isTrusted : Bool
  /-- Go `json.NewDecoder(body).Decode(&response)` -/
  Decode : Body → Except Err ContainerCreateResponse

/-- Go `serverResponse`. -/
structure serverResponse (L : Lib) where
  body : L.Body
  statusCode : Int

/-- The methods of `DockerCli` used by `create.go` and defined elsewhere.  Each takes
the current world and returns its result with the next world.  `trustedReference` and
`tagTrusted` hold the client and with it its two writers: what they write there is part of
what they return. -/
structure DockerCli (L : Lib) (σ : Type) where
  configFile : L.ConfigFile
  /-- Go `cli.call(method, path, data, nil)` -/
  call : String → String → L.Merged → σ → (serverResponse L × Option Err) × σ
  /-- Go `cli.stream(method, path, sopts)`: the text streamed to `sopts.out` and the error -/
  stream : String → String → List (String × List String) → σ → (String × Option Err) × σ
  /-- Go `cli.trustedReference(repo, ref)`: what it returns (`Except.ok none` is a nil
  reference with a nil error) and what it writes to the writers of the client meanwhile -/
  trustedReference : String → L.Ref → σ →
    (Except Err (Option L.Ref) × List (Chan × String)) × σ
  /-- Go `cli.tagTrusted(repoInfo, trustedRef, ref)`: the error it returns and what it
  writes to the writers of the client meanwhile -/
  tagTrusted : L.RepoInfo → L.Ref → L.Ref → σ → (Option Err × List (Chan × String)) × σ

/-- What a run of the client does, in order. -/
inductive Event (L : Lib) where
  /-- text written to a writer of the client -/
  | write (c : Chan) (text : String)
  /-- Go `cli.trustedReference(repo, ref)`, what it returned and what it wrote -/
  | trustedReference (repo : String) (ref : L.Ref) (res : Except Err (Option L.Ref))
      (wrote : List (Chan × String))
  /-- one invocation of `pullImageCustomOut(image, out)`, placed where it is entered,
  with the error it returned -/
  | pull (image : String) (dst : Chan) (res : Option Err)
  /-- Go `cli.stream(method, path, sopts)` with `sopts.headers` and `sopts.out` -/
  | stream (method path : String) (headers : List (String × List String)) (dst : Chan)
  /-- Go `cli.call(method, path, data, nil)`, the value of `config.Image` when it was sent,
  and the status code, the error and the response body it returned -/
  | call (method path : String) (data : L.Merged) (image : String)
      (statusCode : Int) (err : Option Err) (body : L.Body)
  /-- Go `cli.tagTrusted(repoInfo, trustedRef, ref)`, what it returned and what it wrote -/
  | tagTrusted (repoInfo : L.RepoInfo) (trustedRef ref : L.Ref) (res : Option Err)
      (wrote : List (Chan × String))

/-- How a call of `createContainer` ends. -/
inductive Outcome where
  /-- Go `return &response, nil` -/
  | ok (response : ContainerCreateResponse)
  /-- Go `return nil, err` -/
  | error (err : Err)
  /-- a run-time panic: a method called on a nil error or on a nil reference -/
  | nilDeref

/-! ## The file system and the container ID file -/

/-- The file system as `create.go` sees it: the contents of the file at each path
(`none`: no file), the error `os.Create` gives at a path (`none`: it succeeds), and
the error a write to the file at a path gives.  No file has the empty path. -/
structure FS where
  files : String → Option String
  createErr : String → Option Err
  writeErr : String → Option Err
  noEmptyPath : files "" = none

namespace os

/-- Go `os.Stat(path)`, reduced to whether its error is nil: it is when a file is there. -/
def Stat (fs : FS) (path : String) : Bool := (fs.files path).isSome

/-- Go `os.Create(path)`: on success the file at `path` exists and is empty; on failure
nothing changes.  The empty path names no file. -/
def Create (fs : FS) (path : String) : Except Err FS :=
  if h : path = "" then .error "open : no such file or directory"
  else
    match fs.createErr path with
    | some e => .error e
    | none =>
      .ok { fs with
            files := fun p => if p = path then some "" else fs.files p
            noEmptyPath := by
              have h2 : ¬ ("" = path) := fun h3 => h h3.symm
              simp [h2, fs.noEmptyPath] }

end os

/-- Go `type cidFile struct`; the open `*os.File` is represented by the path it was
created at. -/
structure cidFile where
  path : String
  file : String
  written : Bool

/-- Go `newCIDFile(path)`: the handle or the error, and the file system afterwards. -/
def newCIDFile (fs : FS) (path : String) : Except Err cidFile × FS :=
  if os.Stat fs path then
    (.error ("Container ID file found, make sure the other container isn't running or delete "
      ++ path), fs)
  else
    match os.Create fs path with
    | .error err => (.error ("Failed to create the container ID file: " ++ err), fs)
    | .ok fs1 => (.ok { path := path, file := path, written := false }, fs1)

/-- Modelled from the spec: `(*cidFile).Write`, which is not in `create.go`.  The spec has
the CID file contain exactly the container identifier, `written` go from false to true
once the identifier is known, and a failed write be an error of its own. -/
def cidFile.Write (c : cidFile) (fs : FS) (id : String) : Except Err (cidFile × FS) :=
  match fs.writeErr c.file with
  | some e => .error e
  | none =>
    .ok ({ c with written := true },
         { fs with
           files := fun p => if p = c.file ∧ p ≠ "" then some id else fs.files p
           noEmptyPath := by simp [fs.noEmptyPath] })

/-- Modelled from the spec: `(*cidFile).Close`, which is not in `create.go`.  The spec has
the handle released on every exit path; it says nothing of the contents, which stay. -/
def cidFile.Close (_c : cidFile) (fs : FS) : FS := fs

/-! ## `create.go`: operations -/

/-- The state a run of `createContainer` threads through its steps. -/
structure St (L : Lib) (σ : Type) where
  /-- the world of the remote engine, the registry and the trust service -/
  world : σ
  fs : FS
  /-- Go `config.Image` -/
  image : String
  /-- the local `trustedRef`; `none` is nil -/
  trustedRef : Option L.Ref
  /-- the local `containerIDFile`; `none` is nil -/
  containerIDFile : Option cidFile

/-- What a step of `createContainer` gives: a value, the events of the step in order,
and the state after it. -/
structure Step (L : Lib) (σ : Type) (α : Type) where
  val : α
  events : List (Event L)
  st : St L σ

/-- A finished run of `createContainer`: how it ended, everything it did, and the final
state (`st.image` is `config.Image` as the caller sees it afterwards). -/
structure Run (L : Lib) (σ : Type) where
  result : Outcome
  trace : List (Event L)
  st : St L σ

/-- Go `url.Values.Encode` for the values of `createContainer`: `name` when it is set. -/
def containerValues (L : Lib) (name : String) : String :=
  if name ≠ "" then "name=" ++ L.QueryEscape name else ""

/-- Go `cli.pullImageCustomOut(image, out)`: the returned error, the events of the call
and the next world. -/
def pullImageCustomOut {L : Lib} {σ : Type} (cli : DockerCli L σ) (image : String)
    (dst : Chan) (w : σ) : Option Err × List (Event L) × σ :=
  let repos := (L.ParseRepositoryTag image).1
  let tag0 := (L.ParseRepositoryTag image).2
  -- pull only the image tagged 'latest' if no tag was specified
  let tag := if tag0 = "" then L.DefaultTag else tag0
  let v := "fromImage=" ++ L.QueryEscape repos ++ "&tag=" ++ L.QueryEscape tag
  match L.ParseRepositoryInfo repos with
  | .error err => (some err, [], w)
  | .ok repoInfo =>
    let authConfig := L.ResolveAuthConfig cli.configFile (L.Index repoInfo)
    match L.Marshal authConfig with
    | .error err => (some err, [], w)
    | .ok buf =>
      let registryAuthHeader := [L.Base64 buf]
      let headers := [("X-Registry-Auth", registryAuthHeader)]
      let r := cli.stream "POST" ("/images/create?" ++ v) headers w
      (r.1.2, [Event.stream "POST" ("/images/create?" ++ v) headers dst,
               Event.write dst r.1.1], r.2)

/-- Go `cli.pullImage(image)`. -/
def pullImage {L : Lib} {σ : Type} (cli : DockerCli L σ) (image : String) (w : σ) :
    Option Err × List (Event L) × σ :=
  pullImageCustomOut cli image Chan.out w

/-- One pull step inside `createContainer`: `pullImageCustomOut(config.Image, cli.err)`. -/
def pullStep {L : Lib} {σ : Type} (cli : DockerCli L σ) (s : St L σ) :
    Step L σ (Option Err) :=
  let r := pullImageCustomOut cli s.image Chan.err s.world
  ⟨r.1, Event.pull s.image Chan.err r.1 :: r.2.1, { s with world := r.2.2 }⟩

/-- The trust resolution of `createContainer` (lines 124-128 and 148-152):
`trustedRef, err = cli.trustedReference(repo, ref)`, then
`config.Image = trustedRef.ImageName(repo)`.  `some` is the way the run ends here. -/
def resolveTrusted {L : Lib} {σ : Type} (cli : DockerCli L σ) (repo : String) (ref : L.Ref)
    (s : St L σ) : Step L σ (Option Outcome) :=
  let r := cli.trustedReference repo ref s.world
  let s1 : St L σ := { s with world := r.2 }
  match r.1.1 with
  | .error err => ⟨some (.error err), [Event.trustedReference repo ref r.1.1 r.1.2], s1⟩
  | .ok none => ⟨some .nilDeref, [Event.trustedReference repo ref r.1.1 r.1.2], s1⟩
  | .ok (some t) =>
    ⟨none, [Event.trustedReference repo ref r.1.1 r.1.2],
      { s1 with trustedRef := some t, image := L.ImageName t repo }⟩

/-- Lines 119-139 of `createContainer`: what happens before the create request when
`pull` is set.  `some` is the way the run ends here. -/
def eagerPull {L : Lib} {σ : Type} (cli : DockerCli L σ) (pull : Bool) (repo : String)
    (ref : L.Ref) (s : St L σ) : Step L σ (Option Outcome) :=
  if pull then
    if L.isTrusted then
      -- For the trusted case, setting config.Image to the trust (notary) reference
      -- should be sufficient to check for updates.
      if !L.HasDigest ref then resolveTrusted cli repo ref s
      else ⟨none, [], s⟩
    else
      -- For the untrusted case, we perform a pull on the image before attempting create.
      let p := pullStep cli s
      -- we don't want to write to stdout anything apart from container.ID
      ⟨p.val.map Outcome.error,
        Event.write Chan.err ("Pulling image '" ++ L.ImageName ref repo ++ "'\n") :: p.events,
        p.st⟩
  else ⟨none, [], s⟩

/-- Go `mergedConfig := runconfig.MergeConfigs(config, hostConfig)` (line 99), as a request
carries it.  `config` is a pointer (`createConfig.config` is a `*runconfig.Config`) and
`MergeConfigs` is handed that pointer, so what `cli.call` sends is the merged configuration
with `config.Image` as it is when the request is made: lines 128 and 152 write
`config.Image` after line 99, and the comment at lines 121-122 counts on that write to
reach the create request. -/
def mergedConfig (L : Lib) (createConfig : createConfig) (image : String) : L.Merged :=
  L.MergeConfigs { createConfig.config with Image := image } createConfig.hostConfig

/-- One create request (lines 142 and 169):
`cli.call("POST", "/containers/create?"+containerValues.Encode(), mergedConfig, nil)`,
with `mergedConfig` read at the current `config.Image`. -/
def callCreate {L : Lib} {σ : Type} (cli : DockerCli L σ) (name : String)
    (mergedConfig : String → L.Merged) (s : St L σ) :
    Step L σ (serverResponse L × Option Err) :=
  let path := "/containers/create?" ++ containerValues L name
  let r := cli.call "POST" path (mergedConfig s.image) s.world
  ⟨r.1, [Event.call "POST" path (mergedConfig s.image) s.image r.1.1.statusCode r.1.2
      r.1.1.body],
    { s with world := r.2 }⟩

/-- Lines 176-190 of `createContainer`: decode the response, print the warnings, write
the container ID file. -/
def finish {L : Lib} {σ : Type} (serverResp : serverResponse L) (s : St L σ) :
    Step L σ Outcome :=
  match L.Decode serverResp.body with
  | .error err => ⟨.error err, [], s⟩
  | .ok response =>
    let warnings : List (Event L) :=
      response.Warnings.map (fun warning => Event.write Chan.err ("WARNING: " ++ warning ++ "\n"))
    match s.containerIDFile with
    | some c =>
      match c.Write s.fs response.ID with
      | .error err => ⟨.error err, warnings, s⟩
      | .ok (c1, fs1) => ⟨.ok response, warnings, { s with containerIDFile := some c1, fs := fs1 }⟩
    | none => ⟨.ok response, warnings, s⟩

/-- Lines 159-167 of `createContainer`: tag the pulled image with the name that was asked
for.  The value is the error the step returns with, if any. -/
def tagStep {L : Lib} {σ : Type} (cli : DockerCli L σ) (repo : String) (ref : L.Ref)
    (s : St L σ) : Step L σ (Option Err) :=
  match s.trustedRef with
  | some trustedRef =>
    if !L.HasDigest ref then
      match L.ParseRepositoryInfo repo with
      | .error err => ⟨some err, [], s⟩
      | .ok repoInfo =>
        let r := cli.tagTrusted repoInfo trustedRef ref s.world
        ⟨r.1.1, [Event.tagTrusted repoInfo trustedRef ref r.1.1 r.1.2],
          { s with world := r.2 }⟩
    else ⟨none, [], s⟩
  | none => ⟨none, [], s⟩

/-- Lines 169-190 of `createContainer`: the retried create request and what follows it. -/
def retry {L : Lib} {σ : Type} (cli : DockerCli L σ) (name : String)
    (mergedConfig : String → L.Merged) (s : St L σ) : Step L σ Outcome :=
  let c := callCreate cli name mergedConfig s
  match c.val.2 with
  | some err => ⟨.error err, c.events, c.st⟩
  | none =>
    let f := finish c.val.1 c.st
    ⟨f.val, c.events ++ f.events, f.st⟩

/-- Lines 155-190 of `createContainer`: pull the image, tag it when it was resolved
through the trust service, and retry the create request. -/
def pullAndRetry {L : Lib} {σ : Type} (cli : DockerCli L σ) (name : String)
    (mergedConfig : String → L.Merged) (repo : String) (ref : L.Ref) (s : St L σ) :
    Step L σ Outcome :=
  -- we don't want to write to stdout anything apart from container.ID
  let p := pullStep cli s
  match p.val with
  | some err => ⟨.error err, p.events, p.st⟩
  | none =>
    let g := tagStep cli repo ref p.st
    match g.val with
    | some err => ⟨.error err, p.events ++ g.events, g.st⟩
    | none =>
      -- Retry
      let r := retry cli name mergedConfig g.st
      ⟨r.val, p.events ++ (g.events ++ r.events), r.st⟩

/-- Lines 145-190 of `createContainer`: the image was not found, pull it and retry. -/
def recover {L : Lib} {σ : Type} (cli : DockerCli L σ) (name : String)
    (mergedConfig : String → L.Merged) (repo : String) (ref : L.Ref) (s : St L σ) :
    Step L σ Outcome :=
  let diag : Event L :=
    Event.write Chan.err ("Unable to find image '" ++ L.ImageName ref repo ++ "' locally\n")
  if L.isTrusted && !L.HasDigest ref && s.trustedRef.isNone then
    let t := resolveTrusted cli repo ref s
    match t.val with
    | some o => ⟨o, diag :: t.events, t.st⟩
    | none =>
      let r := pullAndRetry cli name mergedConfig repo ref t.st
      ⟨r.val, diag :: (t.events ++ r.events), r.st⟩
  else
    let r := pullAndRetry cli name mergedConfig repo ref s
    ⟨r.val, diag :: r.events, r.st⟩

/-- Lines 141-190 of `createContainer`: the first create request and what follows it. -/
def createAndRecover {L : Lib} {σ : Type} (cli : DockerCli L σ) (name : String)
    (mergedConfig : String → L.Merged) (repo : String) (ref : L.Ref) (s : St L σ) :
    Step L σ Outcome :=
  --create the container
  let c := callCreate cli name mergedConfig s
  let serverResp := c.val.1
  --if image not found try to pull it
  if serverResp.statusCode = 404 then
    match c.val.2 with
    | none => ⟨.nilDeref, c.events, c.st⟩
    | some err =>
      if strings.Contains err c.st.image then
        let r := recover cli name mergedConfig repo ref c.st
        ⟨r.val, c.events ++ r.events, r.st⟩
      else ⟨.error err, c.events, c.st⟩
  else
    match c.val.2 with
    | some err => ⟨.error err, c.events, c.st⟩
    | none =>
      let f := finish serverResp c.st
      ⟨f.val, c.events ++ f.events, f.st⟩

/-- Lines 113-190 of `createContainer`, after the container ID file is open. -/
def createBody {L : Lib} {σ : Type} (cli : DockerCli L σ) (createConfig : createConfig)
    (s : St L σ) : Step L σ Outcome :=
  let config := createConfig.config
  let hostConfig := createConfig.hostConfig
  let name := createConfig.name
  let pull := createConfig.pull
  -- mergedConfig holds the pointer config: a request carries config.Image as it then is
  let mergedConfig := fun image => L.MergeConfigs { config with Image := image } hostConfig
  let repo := (L.ParseRepositoryTag config.Image).1
  let tag0 := (L.ParseRepositoryTag config.Image).2
  let tag := if tag0 = "" then L.DefaultTag else tag0
  let ref := L.ParseReference tag
  let e := eagerPull cli pull repo ref s
  match e.val with
  | some o => ⟨o, e.events, e.st⟩
  | none =>
    let r := createAndRecover cli name mergedConfig repo ref e.st
    ⟨r.val, e.events ++ r.events, r.st⟩

/-- Go `cli.createContainer(createConfig)`, run in world `w` on file system `fs`. -/
def createContainer {L : Lib} {σ : Type} (cli : DockerCli L σ) (createConfig : createConfig)
    (w : σ) (fs : FS) : Run L σ :=
  let s0 : St L σ :=
    { world := w, fs := fs, image := createConfig.config.Image, trustedRef := none,
      containerIDFile := none }
  if createConfig.cidfile ≠ "" then
    match newCIDFile fs createConfig.cidfile with
    | (.error err, fs1) => ⟨.error err, [], { s0 with fs := fs1 }⟩
    | (.ok containerIDFile, fs1) =>
      let r := createBody cli createConfig
        { s0 with fs := fs1, containerIDFile := some containerIDFile }
      -- defer containerIDFile.Close()
      ⟨r.val, r.events, { r.st with fs := containerIDFile.Close r.st.fs }⟩
  else
    let r := createBody cli createConfig s0
    ⟨r.val, r.events, r.st⟩

/-- How a call of `CmdCreate` ends. -/
inductive CmdOutcome where
  /-- Go `return nil` -/
  | done
  /-- Go `return err` -/
  | error (err : Err)
  /-- Go `os.Exit(1)` -/
  | exit (code : Int)
  /-- a run-time panic inside `createContainer` -/
  | nilDeref

/-- A finished run of `CmdCreate`. -/
structure CmdRun (L : Lib) (σ : Type) where
  result : CmdOutcome
  /-- whether `createContainer` was called -/
  reached : Bool
  trace : List (Event L)
  world : σ
  fs : FS

/-- What `runconfig.Parse(cmd, args)` and the flag set give `CmdCreate`: an error, or
the two configurations with the values of `--name` and `--pull`. -/
structure Parsed where
  config : Config
  hostConfig : HostConfig
  flName : String
  flPull : Bool

/-- The `createConfig` that `CmdCreate` builds from what it parsed (lines 215-221). -/
def Parsed.createConfig (p : Parsed) : createConfig :=
  { config := p.config, hostConfig := p.hostConfig,
    cidfile := p.hostConfig.ContainerIDFile, name := p.flName, pull := p.flPull }

/-- Go `cli.CmdCreate(args...)`, given what parsing `args` returns.  What
`cmd.ReportError` and `cmd.Usage` print goes through the flag set, which is not part of
`create.go`, and is not recorded. -/
def CmdCreate {L : Lib} {σ : Type} (cli : DockerCli L σ) (parsed : Except Err Parsed)
    (w : σ) (fs : FS) : CmdRun L σ :=
  match parsed with
  | .error _ => ⟨.exit 1, false, [], w, fs⟩
  | .ok p =>
    if p.config.Image = "" then ⟨.done, false, [], w, fs⟩
    else
      let r := createContainer cli p.createConfig w fs
      match r.result with
      | .error err => ⟨.error err, true, r.trace, r.st.world, r.st.fs⟩
      | .nilDeref => ⟨.nilDeref, true, r.trace, r.st.world, r.st.fs⟩
      | .ok response =>
        ⟨.done, true, r.trace ++ [Event.write Chan.out (response.ID ++ "\n")],
          r.st.world, r.st.fs⟩

/-! ## Reading a trace -/

/-- A create request: `cli.call` is used for nothing else in `create.go`. -/
def Event.isCreate {L : Lib} : Event L → Bool
  | .call _ _ _ _ _ _ _ => true
  | _ => false

/-- An invocation of the pull step. -/
def Event.isPull {L : Lib} : Event L → Bool
  | .pull _ _ _ => true
  | _ => false

/-- An invocation of the trust resolver. -/
def Event.isTrust {L : Lib} : Event L → Bool
  | .trustedReference _ _ _ _ => true
  | _ => false

/-- An invocation of the trusted tag operation. -/
def Event.isTag {L : Lib} : Event L → Bool
  | .tagTrusted _ _ _ _ _ => true
  | _ => false

/-- A write of `create.go` itself to the given writer: a diagnostic, what a pull streams,
a warning, the line with the ID. -/
def Event.isWriteTo {L : Lib} (c : Chan) : Event L → Bool
  | .write d _ => decide (d = c)
  | _ => false

/-- The not-found pattern of line 144 on a create request: status 404 and an error whose
text contains `config.Image`. -/
def Event.notFound {L : Lib} : Event L → Bool
  | .call _ _ _ image statusCode (some err) _ =>
    decide (statusCode = 404) && strings.Contains err image
  | _ => false

/-- A pull step that returned an error. -/
def Event.isFailedPull {L : Lib} : Event L → Bool
  | .pull _ _ (some _) => true
  | _ => false

/-- The error a tag operation returned. -/
def Event.tagFailure {L : Lib} : Event L → Option Err
  | .tagTrusted _ _ _ res _ => res
  | _ => none

/-- The value `config.Image` had when a create request was sent. -/
def Event.image {L : Lib} : Event L → Option String
  | .call _ _ _ image _ _ _ => some image
  | _ => none

/-- The response body a create request returned. -/
def Event.body {L : Lib} : Event L → Option L.Body
  | .call _ _ _ _ _ _ body => some body
  | _ => none

/-- The error a create request returned. -/
def Event.failure {L : Lib} : Event L → Option Err
  | .call _ _ _ _ _ err _ => err
  | _ => none

/-- What a create request sent: method, path with query, and body. -/
def Event.request {L : Lib} : Event L → Option (String × String × L.Merged)
  | .call method path data _ _ _ _ => some (method, path, data)
  | _ => none

/-- Not a create request. -/
def Event.notCreate {L : Lib} (e : Event L) : Bool := !e.isCreate

/-- Not a tag operation. -/
def Event.notTag {L : Lib} (e : Event L) : Bool := !e.isTag

/-- The create requests of a trace, in order. -/
def creates {L : Lib} (tr : List (Event L)) : List (Event L) := tr.filter Event.isCreate

/-- What happens before the first create request (everything, when there is none). -/
def beforeFirstCreate {L : Lib} (tr : List (Event L)) : List (Event L) :=
  tr.takeWhile Event.notCreate

/-- What happens after the first create request. -/
def afterFirstCreate {L : Lib} (tr : List (Event L)) : List (Event L) :=
  (tr.dropWhile Event.notCreate).tail

/-- What happens between the first and the second create request. -/
def betweenCreates {L : Lib} (tr : List (Event L)) : List (Event L) :=
  beforeFirstCreate (afterFirstCreate tr)

/-- What happens after the second create request. -/
def afterSecondCreate {L : Lib} (tr : List (Event L)) : List (Event L) :=
  afterFirstCreate (afterFirstCreate tr)

/-- What happens before the tag operation. -/
def beforeTag {L : Lib} (tr : List (Event L)) : List (Event L) := tr.takeWhile Event.notTag

/-- What happens after the tag operation. -/
def afterTag {L : Lib} (tr : List (Event L)) : List (Event L) :=
  (tr.dropWhile Event.notTag).tail

/-- The texts among `wrote` that went to the writer `c`, in order. -/
def textsTo (c : Chan) (wrote : List (Chan × String)) : List String :=
  (wrote.filter (fun x => decide (x.1 = c))).map (fun x => x.2)

/-- What an event puts on a writer: the text of a write of `create.go`, and what a call of
`cli.trustedReference` or of `cli.tagTrusted` wrote there. -/
def Event.texts {L : Lib} (c : Chan) : Event L → List String
  | .write d text => if d = c then [text] else []
  | .trustedReference _ _ _ wrote => textsTo c wrote
  | .tagTrusted _ _ _ _ wrote => textsTo c wrote
  | _ => []

/-- The texts written to a writer in a run, in order. -/
def written {L : Lib} (c : Chan) (tr : List (Event L)) : List String :=
  tr.flatMap (Event.texts c)

/-- The calls of `cli.trustedReference` and `cli.tagTrusted` in a stretch of a run write
nothing to `cli.out`. -/
def TrustSilent {L : Lib} (tr : List (Event L)) : Prop :=
  ∀ e ∈ tr, e.isTrust = true ∨ e.isTag = true → e.texts Chan.out = []

instance {L : Lib} (tr : List (Event L)) : Decidable (TrustSilent tr) := by
  unfold TrustSilent
  infer_instance

/-- The repository `createContainer` parses out of `config.Image` (line 113). -/
def parsedRepo (L : Lib) (image : String) : String := (L.ParseRepositoryTag image).1

/-- The reference `createContainer` parses out of `config.Image` (lines 113-117). -/
def parsedRef (L : Lib) (image : String) : L.Ref :=
  L.ParseReference
    (if (L.ParseRepositoryTag image).2 = "" then L.DefaultTag else (L.ParseRepositoryTag image).2)

/-- The path of the create request (lines 142 and 169). -/
def createPath (L : Lib) (name : String) : String :=
  "/containers/create?" ++ containerValues L name

/-- The diagnostic of line 132. -/
def pullingEvent (L : Lib) (image : String) : Event L :=
  Event.write Chan.err
    ("Pulling image '" ++ L.ImageName (parsedRef L image) (parsedRepo L image) ++ "'\n")

/-- The diagnostic of line 145. -/
def unableEvent (L : Lib) (image : String) : Event L :=
  Event.write Chan.err
    ("Unable to find image '" ++ L.ImageName (parsedRef L image) (parsedRepo L image)
      ++ "' locally\n")

/-- The lines of line 183, one for each warning. -/
def warningEvents (L : Lib) (warnings : List String) : List (Event L) :=
  warnings.map (fun warning => Event.write Chan.err ("WARNING: " ++ warning ++ "\n"))

/-- Whether the container ID file guard of lines 106-111 lets the run go on: no
`cidfile` was asked for, or `newCIDFile` returns a handle. -/
def cidGuardPasses (fs : FS) (cidfile : String) : Bool :=
  decide (cidfile = "") ||
    match (newCIDFile fs cidfile).1 with
    | .ok _ => true
    | .error _ => false

/-! ## The ways a run can go

Each predicate below lists, exit by exit, the traces a part of `createContainer` can
leave; the theorems after them show that the code leaves no other. -/

/-- Streams and writes to `cli.err`: what a pull and the warnings leave in a trace. -/
def Event.quiet {L : Lib} : Event L → Bool
  | .stream _ _ _ _ => true
  | .write c _ => decide (c = Chan.err)
  | _ => false

/-- A stretch of a trace with streams and writes to `cli.err` only. -/
def Quiet {L : Lib} (l : List (Event L)) : Prop := ∀ e ∈ l, e.quiet = true

/-- The ways lines 176-190 can go. -/
inductive FinishShape {L : Lib} (body : L.Body) (cid : Option cidFile) (fs : FS)
    (o : Outcome) (tr : List (Event L)) (fs1 : FS) : Prop where
  | decodeError (e : Err) (hd : L.Decode body = .error e) (ho : o = .error e) (ht : tr = [])
      (hf : fs1 = fs)
  | writeError (resp : ContainerCreateResponse) (c : cidFile) (e : Err)
      (hd : L.Decode body = .ok resp) (hc : cid = some c)
      (hw : c.Write fs resp.ID = .error e) (ho : o = .error e)
      (ht : tr = warningEvents L resp.Warnings) (hf : fs1 = fs)
  | okNoFile (resp : ContainerCreateResponse) (hd : L.Decode body = .ok resp)
      (hc : cid = none) (ho : o = .ok resp) (ht : tr = warningEvents L resp.Warnings)
      (hf : fs1 = fs)
  | okFile (resp : ContainerCreateResponse) (c c1 : cidFile)
      (hd : L.Decode body = .ok resp) (hc : cid = some c)
      (hw : c.Write fs resp.ID = .ok (c1, fs1)) (ho : o = .ok resp)
      (ht : tr = warningEvents L resp.Warnings)

/-- The ways lines 169-190 can go. -/
inductive RetryShape {L : Lib} (path : String) (d : String → L.Merged) (image : String)
    (cid : Option cidFile) (fs : FS) (o : Outcome) (tr : List (Event L)) (fs1 : FS) : Prop where
  | callError (status : Int) (e : Err) (body : L.Body) (ho : o = .error e)
      (ht : tr = [Event.call "POST" path (d image) image status (some e) body]) (hf : fs1 = fs)
  | called (status : Int) (body : L.Body) (F : List (Event L))
      (hF : FinishShape body cid fs o F fs1)
      (ht : tr = Event.call "POST" path (d image) image status none body :: F)

/-- The ways the trust resolution of lines 147-153 can let the run go on. -/
inductive TrustShape {L : Lib} (repo : String) (ref : L.Ref) (image0 : String)
    (tref0 : Option L.Ref) (T : List (Event L)) (tref1 : Option L.Ref) (image1 : String) :
    Prop where
  | skip (hn : ¬ (L.isTrusted = true ∧ L.HasDigest ref = false ∧ tref0 = none))
      (hT : T = []) (ht : tref1 = tref0) (hi : image1 = image0)
  | resolved (wr : List (Chan × String))
      (t : L.Ref) (h1 : L.isTrusted = true) (h2 : L.HasDigest ref = false)
      (h3 : tref0 = none) (hT : T = [Event.trustedReference repo ref (.ok (some t)) wr])
      (ht : tref1 = some t) (hi : image1 = L.ImageName t repo)

/-- The ways the tag step of lines 159-167 can let the run go on. -/
inductive TagShape {L : Lib} (repo : String) (ref : L.Ref) (tref1 : Option L.Ref)
    (G : List (Event L)) : Prop where
  | skip (hn : tref1 = none ∨ L.HasDigest ref = true) (hG : G = [])
  | tagged (wr : List (Chan × String))
      (t : L.Ref) (ri : L.RepoInfo) (h1 : tref1 = some t) (h2 : L.HasDigest ref = false)
      (h3 : L.ParseRepositoryInfo repo = .ok ri) (hG : G = [Event.tagTrusted ri t ref none wr])

/-- The ways lines 145-190 can go. -/
inductive RecoverShape {L : Lib} (path : String) (d : String → L.Merged) (repo : String)
    (ref : L.Ref) (diag : Event L) (image0 : String) (tref0 : Option L.Ref)
    (cid : Option cidFile) (fs : FS) (o : Outcome) (tr : List (Event L)) (fs1 : FS) : Prop where
  | trustError (wr : List (Chan × String))
      (e : Err) (h1 : L.isTrusted = true) (h2 : L.HasDigest ref = false)
      (h3 : tref0 = none) (ho : o = .error e)
      (ht : tr = [diag, Event.trustedReference repo ref (.error e) wr]) (hf : fs1 = fs)
  | trustNil (wr : List (Chan × String)) (h1 : L.isTrusted = true) (h2 : L.HasDigest ref = false)
      (h3 : tref0 = none) (ho : o = .nilDeref)
      (ht : tr = [diag, Event.trustedReference repo ref (.ok none) wr]) (hf : fs1 = fs)
  | pullError (T : List (Event L)) (tref1 : Option L.Ref) (image1 : String) (e : Err)
      (tl : List (Event L)) (hT : TrustShape repo ref image0 tref0 T tref1 image1)
      (hq : Quiet tl) (ho : o = .error e)
      (ht : tr = diag :: (T ++ Event.pull image1 Chan.err (some e) :: tl)) (hf : fs1 = fs)
  | repoInfoError (T : List (Event L)) (tref1 : Option L.Ref) (image1 : String)
      (tl : List (Event L)) (t : L.Ref) (e : Err)
      (hT : TrustShape repo ref image0 tref0 T tref1 image1) (hq : Quiet tl)
      (h1 : tref1 = some t) (h2 : L.HasDigest ref = false)
      (h3 : L.ParseRepositoryInfo repo = .error e) (ho : o = .error e)
      (ht : tr = diag :: (T ++ Event.pull image1 Chan.err none :: tl)) (hf : fs1 = fs)
  | tagError (wr : List (Chan × String))
      (T : List (Event L)) (tref1 : Option L.Ref) (image1 : String)
      (tl : List (Event L)) (t : L.Ref) (ri : L.RepoInfo) (e : Err)
      (hT : TrustShape repo ref image0 tref0 T tref1 image1) (hq : Quiet tl)
      (h1 : tref1 = some t) (h2 : L.HasDigest ref = false)
      (h3 : L.ParseRepositoryInfo repo = .ok ri) (ho : o = .error e)
      (ht : tr = diag :: (T ++ Event.pull image1 Chan.err none ::
        (tl ++ [Event.tagTrusted ri t ref (some e) wr]))) (hf : fs1 = fs)
  | retried (T : List (Event L)) (tref1 : Option L.Ref) (image1 : String)
      (tl G R : List (Event L))
      (hT : TrustShape repo ref image0 tref0 T tref1 image1) (hq : Quiet tl)
      (hG : TagShape repo ref tref1 G) (hR : RetryShape path d image1 cid fs o R fs1)
      (ht : tr = diag :: (T ++ Event.pull image1 Chan.err none :: (tl ++ (G ++ R))))

/-- The ways lines 119-139 can let the run go on. -/
inductive EagerShape {L : Lib} (pull : Bool) (repo : String) (ref : L.Ref) (pulling : Event L)
    (image0 : String) (E : List (Event L)) (tref1 : Option L.Ref) (image1 : String) :
    Prop where
  | skip (hn : pull = false ∨ (L.isTrusted = true ∧ L.HasDigest ref = true))
      (hE : E = []) (ht : tref1 = none) (hi : image1 = image0)
  | resolved (wr : List (Chan × String)) (t : L.Ref) (h1 : pull = true) (h2 : L.isTrusted = true)
      (h3 : L.HasDigest ref = false)
      (hE : E = [Event.trustedReference repo ref (.ok (some t)) wr])
      (ht : tref1 = some t) (hi : image1 = L.ImageName t repo)
  | pulled (tl : List (Event L)) (h1 : pull = true) (h2 : L.isTrusted = false)
      (hq : Quiet tl) (hE : E = pulling :: Event.pull image0 Chan.err none :: tl)
      (ht : tref1 = none) (hi : image1 = image0)

/-- The ways lines 113-190 can go. -/
inductive BodyShape {L : Lib} (cfg : createConfig) (cid : Option cidFile) (fs : FS)
    (o : Outcome) (tr : List (Event L)) (fs1 : FS) : Prop where
  | trustError (wr : List (Chan × String))
      (e : Err) (h1 : cfg.pull = true) (h2 : L.isTrusted = true)
      (h3 : L.HasDigest (parsedRef L cfg.config.Image) = false) (ho : o = .error e)
      (ht : tr = [Event.trustedReference (parsedRepo L cfg.config.Image)
        (parsedRef L cfg.config.Image) (.error e) wr]) (hf : fs1 = fs)
  | trustNil (wr : List (Chan × String)) (h1 : cfg.pull = true) (h2 : L.isTrusted = true)
      (h3 : L.HasDigest (parsedRef L cfg.config.Image) = false) (ho : o = .nilDeref)
      (ht : tr = [Event.trustedReference (parsedRepo L cfg.config.Image)
        (parsedRef L cfg.config.Image) (.ok none) wr]) (hf : fs1 = fs)
  | pullError (e : Err) (tl : List (Event L)) (h1 : cfg.pull = true)
      (h2 : L.isTrusted = false) (hq : Quiet tl) (ho : o = .error e)
      (ht : tr = pullingEvent L cfg.config.Image ::
        Event.pull cfg.config.Image Chan.err (some e) :: tl) (hf : fs1 = fs)
  | nilError (E : List (Event L)) (tref1 : Option L.Ref) (image1 : String) (body : L.Body)
      (hE : EagerShape cfg.pull (parsedRepo L cfg.config.Image) (parsedRef L cfg.config.Image)
        (pullingEvent L cfg.config.Image) cfg.config.Image E tref1 image1)
      (ho : o = .nilDeref)
      (ht : tr = E ++ [Event.call "POST" (createPath L cfg.name)
        (mergedConfig L cfg image1) image1 404 none body]) (hf : fs1 = fs)
  | createError (E : List (Event L)) (tref1 : Option L.Ref) (image1 : String)
      (status : Int) (e : Err) (body : L.Body)
      (hE : EagerShape cfg.pull (parsedRepo L cfg.config.Image) (parsedRef L cfg.config.Image)
        (pullingEvent L cfg.config.Image) cfg.config.Image E tref1 image1)
      (hn : ¬ (status = 404 ∧ strings.Contains e image1 = true)) (ho : o = .error e)
      (ht : tr = E ++ [Event.call "POST" (createPath L cfg.name)
        (mergedConfig L cfg image1) image1 status (some e) body]) (hf : fs1 = fs)
  | created (E : List (Event L)) (tref1 : Option L.Ref) (image1 : String)
      (status : Int) (body : L.Body) (F : List (Event L))
      (hE : EagerShape cfg.pull (parsedRepo L cfg.config.Image) (parsedRef L cfg.config.Image)
        (pullingEvent L cfg.config.Image) cfg.config.Image E tref1 image1)
      (hs : status ≠ 404) (hF : FinishShape body cid fs o F fs1)
      (ht : tr = E ++ Event.call "POST" (createPath L cfg.name)
        (mergedConfig L cfg image1) image1 status none body :: F)
  | recovered (E : List (Event L)) (tref1 : Option L.Ref) (image1 : String)
      (e : Err) (body : L.Body) (R : List (Event L))
      (hE : EagerShape cfg.pull (parsedRepo L cfg.config.Image) (parsedRef L cfg.config.Image)
        (pullingEvent L cfg.config.Image) cfg.config.Image E tref1 image1)
      (hc : strings.Contains e image1 = true)
      (hR : RecoverShape (createPath L cfg.name) (mergedConfig L cfg)
        (parsedRepo L cfg.config.Image) (parsedRef L cfg.config.Image)
        (unableEvent L cfg.config.Image) image1 tref1 cid fs o R fs1)
      (ht : tr = E ++ Event.call "POST" (createPath L cfg.name)
        (mergedConfig L cfg image1) image1 404 (some e) body :: R)

/-- The ways `createContainer` can go. -/
inductive RunShape {L : Lib} (cfg : createConfig) (fs : FS)
    (o : Outcome) (tr : List (Event L)) (fs1 : FS) : Prop where
  | noFile (hc : cfg.cidfile = "") (hB : BodyShape cfg none fs o tr fs1)
  | guardError (e : Err) (hc : cfg.cidfile ≠ "")
      (hg : newCIDFile fs cfg.cidfile = (.error e, fs)) (ho : o = .error e) (ht : tr = [])
      (hf : fs1 = fs)
  | withFile (c : cidFile) (fs0 : FS) (hc : cfg.cidfile ≠ "")
      (hg : newCIDFile fs cfg.cidfile = (.ok c, fs0)) (hB : BodyShape cfg (some c) fs0 o tr fs1)

/-! ## Stretches of a trace, the ends of a run, and a small world for examples -/

/-- No event of the list satisfies `p`. -/
def Avoids {L : Lib} (p : Event L → Bool) (l : List (Event L)) : Prop := ∀ e ∈ l, p e = false

/-- A response of the example engine to a create request: the status code, the error, and
the response the body decodes to (`none`: the body does not decode). -/
abbrev DemoResp := Int × Option Err × Option ContainerCreateResponse

/-- An example library: `alpine:latest` parses into `alpine` and `latest`,
`alpine@sha256:abc` into `alpine` and `sha256:abc`, a reference is its tag or digest text,
and it has a digest when the text contains `sha256:`. -/
def demoLib (trusted : Bool) : Lib where
  Ref := String
  RepoInfo := String
  IndexInfo := String
  AuthConfig := Unit
  ConfigFile := Unit
  Merged := Config × HostConfig
  Body := Option ContainerCreateResponse
  ParseRepositoryTag := fun s =>
    if s = "alpine:latest" then ("alpine", "latest")
    else if s = "alpine@sha256:abc" then ("alpine", "sha256:abc")
    else (s, "")
  DefaultTag := "latest"
  ParseReference := fun t => t
  HasDigest := fun t => strings.Contains t "sha256:"
  ImageName := fun r repo =>
    if strings.Contains r "sha256:" then repo ++ "@" ++ r else repo ++ ":" ++ r
  ParseRepositoryInfo := fun s => .ok s
  Index := fun _ => "docker.io"
  ResolveAuthConfig := fun _ _ => ()
  Marshal := fun _ => .ok "{}"
  Base64 := fun s => s
  QueryEscape := fun s => s
  MergeConfigs := fun c h => (c, h)
  isTrusted := trusted
  Decode := fun b => match b with
    | some r => .ok r
    | none => .error "unexpected EOF"

/-- An example client.  Its world is the list of responses the engine still has to give
to create requests; pulls, trust resolution and tagging succeed. -/
def demoCli (trusted : Bool) : DockerCli (demoLib trusted) (List DemoResp) where
  configFile := ()
  call := fun _ _ _ w =>
    match w with
    | [] => ((⟨none, 500⟩, some "server error"), [])
    | r :: rest => ((⟨r.2.2, r.1⟩, r.2.1), rest)
  stream := fun _ _ _ w => (("Pulling from library/alpine\n", none), w)
  trustedReference := fun _ _ w => ((.ok (some "sha256:abc"), []), w)
  tagTrusted := fun _ _ _ w => ((none, []), w)

/-- An example file system with one file, `/tmp/cid`. -/
def demoFS : FS where
  files := fun p => if p = "/tmp/cid" then some "4f5e" else none
  createErr := fun _ => none
  writeErr := fun _ => none
  noEmptyPath := by decide

/-- Example `docker create alpine:latest`, with the given `--pull` and `--cidfile`. -/
def demoConfig (pull : Bool) (cidfile : String) : createConfig :=
  { config := ⟨"alpine:latest", ""⟩, hostConfig := ⟨cidfile, ""⟩, cidfile := cidfile,
    name := "", pull := pull }

/-- The engine does not have the image, neither at the first request nor at the second. -/
def demoMissingTwice : List DemoResp :=
  [(404, some "No such image: alpine:latest", none),
   (404, some "No such image: alpine:latest (still)", none)]

/-- The engine does not have the image at first and creates the container at the retry. -/
def demoMissingOnce : List DemoResp :=
  [(404, some "No such image: alpine:latest", none),
   (201, none, some ⟨"c0ffee", ["low disk space"]⟩)]

/-- The engine refuses the create request for a reason of its own. -/
def demoConflict : List DemoResp :=
  [(409, some "Conflict. The name is already in use", none)]

/-- The pull on the registry fails. -/
def demoCliPullFails : DockerCli (demoLib false) (List DemoResp) :=
  { demoCli false with
    stream := fun _ _ _ w => (("", some "registry unreachable"), w) }

/-- An example client with trust mode active whose tag operation announces itself on
`cli.out`, as `tagTrusted` of `api/client/trust.go` does (the file is not among the
sources): `Tagging <trusted name> as <name asked for>`. -/
def demoCliTagging : DockerCli (demoLib true) (List DemoResp) :=
  { demoCli true with
    tagTrusted := fun repoInfo trustedRef ref w =>
      ((none, [(Chan.out, "Tagging " ++ (demoLib true).ImageName trustedRef repoInfo ++ " as "
        ++ (demoLib true).ImageName ref repoInfo ++ "\n")]), w) }

/-- What a run that returns a response looks like: it ends with a create request that
succeeded and the warnings of the response this request's body decoded to. -/
def EndsWell {L : Lib} (path : String) (d : String → L.Merged) (cid : Option cidFile) (fs fs1 : FS)
    (tr : List (Event L)) (resp : ContainerCreateResponse) : Prop :=
  ∃ pre image status body,
    tr = pre ++ Event.call "POST" path (d image) image status none body ::
      warningEvents L resp.Warnings ∧
    Avoids (Event.isWriteTo Chan.out) pre ∧ L.Decode body = .ok resp ∧
    (cid = none → fs1 = fs) ∧ (∀ c, cid = some c → ∃ c1, c.Write fs resp.ID = .ok (c1, fs1))

/-- Example `docker create alpine:latest`, as parsed. -/
def demoParsed : Parsed :=
  { config := ⟨"alpine:latest", ""⟩, hostConfig := ⟨"", ""⟩, flName := "", flPull := false }

/-- The engine creates the container and answers with a body that does not decode. -/
def demoGarbled : List DemoResp := [(201, none, none)]

/-- What holds of a tag operation `g` in a stretch `tr` of a run that ends with `o`: a
pull to `cli.err` that succeeded comes before it, no pull and no tag operation comes
after it, a create request comes next when it succeeded, and when it failed the run ends
there with its error. -/
def TagInOrder {L : Lib} (o : Outcome) (tr : List (Event L)) (g : Event L) : Prop :=
  (∃ image, Event.pull image Chan.err none ∈ afterFirstCreate (beforeTag tr)) ∧
    Avoids Event.isPull (afterTag tr) ∧ Avoids Event.isTag (afterTag tr) ∧
    (g.tagFailure = none → ∃ c, (afterTag tr).head? = some c ∧ c.isCreate = true) ∧
    (∀ e, g.tagFailure = some e → afterTag tr = [] ∧ o = .error e)

/-! ## The code leaves the traces listed above -/

theorem pullStep_shape {L : Lib} {σ : Type} (cli : DockerCli L σ) (s : St L σ) :
    ∃ tl, Quiet tl ∧
      (pullStep cli s).events = Event.pull s.image Chan.err (pullStep cli s).val :: tl ∧
      (pullStep cli s).st.fs = s.fs ∧ (pullStep cli s).st.image = s.image ∧
      (pullStep cli s).st.trustedRef = s.trustedRef ∧
      (pullStep cli s).st.containerIDFile = s.containerIDFile := by
  refine ⟨(pullImageCustomOut cli s.image Chan.err s.world).2.1, ?_, rfl, rfl, rfl, rfl, rfl⟩
  cases h1 : L.ParseRepositoryInfo (L.ParseRepositoryTag s.image).1 with
  | error e => simp [pullImageCustomOut, h1, Quiet]
  | ok ri =>
    cases h2 : L.Marshal (L.ResolveAuthConfig cli.configFile (L.Index ri)) with
    | error e => simp [pullImageCustomOut, h1, h2, Quiet]
    | ok buf => simp [pullImageCustomOut, h1, h2, Quiet, Event.quiet]

theorem finish_shape {L : Lib} {σ : Type} (serverResp : serverResponse L) (s : St L σ) :
    FinishShape serverResp.body s.containerIDFile s.fs (finish serverResp s).val
      (finish serverResp s).events (finish serverResp s).st.fs := by
  unfold finish
  split
  next e hd => exact .decodeError e hd rfl rfl rfl
  next resp hd =>
    split
    next c hc =>
      split
      next e hw => exact .writeError resp c e hd hc hw rfl rfl rfl
      next c1 fs1 hw => exact .okFile resp c c1 hd hc hw rfl rfl
    next hc => exact .okNoFile resp hd hc rfl rfl rfl

theorem retry_shape {L : Lib} {σ : Type} (cli : DockerCli L σ) (name : String)
    (d : String → L.Merged) (s : St L σ) :
    RetryShape (createPath L name) d s.image s.containerIDFile s.fs
      (retry cli name d s).val (retry cli name d s).events (retry cli name d s).st.fs := by
  simp only [retry]
  split
  next e he =>
    refine .callError (callCreate cli name d s).val.1.statusCode e
      (callCreate cli name d s).val.1.body rfl ?_ rfl
    simp only [callCreate, createPath] at he ⊢
    rw [he]
  next he =>
    refine .called (callCreate cli name d s).val.1.statusCode (callCreate cli name d s).val.1.body
      _ (finish_shape (callCreate cli name d s).val.1 (callCreate cli name d s).st) ?_
    simp only [callCreate, createPath] at he ⊢
    rw [he]
    rfl

theorem resolveTrusted_cases {L : Lib} {σ : Type} (cli : DockerCli L σ) (repo : String)
    (ref : L.Ref) (s : St L σ) :
    (∃ e wr, (resolveTrusted cli repo ref s).val = some (.error e) ∧
        (resolveTrusted cli repo ref s).events = [Event.trustedReference repo ref (.error e) wr] ∧
        (resolveTrusted cli repo ref s).st.fs = s.fs) ∨
    (∃ wr, (resolveTrusted cli repo ref s).val = some .nilDeref ∧
        (resolveTrusted cli repo ref s).events = [Event.trustedReference repo ref (.ok none) wr] ∧
        (resolveTrusted cli repo ref s).st.fs = s.fs) ∨
    (∃ t wr, (resolveTrusted cli repo ref s).val = none ∧
        (resolveTrusted cli repo ref s).events =
          [Event.trustedReference repo ref (.ok (some t)) wr] ∧
        (resolveTrusted cli repo ref s).st.fs = s.fs ∧
        (resolveTrusted cli repo ref s).st.trustedRef = some t ∧
        (resolveTrusted cli repo ref s).st.image = L.ImageName t repo ∧
        (resolveTrusted cli repo ref s).st.containerIDFile = s.containerIDFile) := by
  simp only [resolveTrusted]
  split
  next e he => exact Or.inl ⟨e, _, rfl, by rw [he], rfl⟩
  next he => exact Or.inr (Or.inl ⟨_, rfl, by rw [he], rfl⟩)
  next t he => exact Or.inr (Or.inr ⟨t, _, rfl, by rw [he], rfl, rfl, rfl, rfl⟩)

theorem tagStep_cases {L : Lib} {σ : Type} (cli : DockerCli L σ) (repo : String)
    (ref : L.Ref) (s : St L σ) :
    (∃ t e, s.trustedRef = some t ∧ L.HasDigest ref = false ∧
        L.ParseRepositoryInfo repo = .error e ∧ (tagStep cli repo ref s).val = some e ∧
        (tagStep cli repo ref s).events = [] ∧ (tagStep cli repo ref s).st.fs = s.fs) ∨
    (∃ t ri e wr, s.trustedRef = some t ∧ L.HasDigest ref = false ∧
        L.ParseRepositoryInfo repo = .ok ri ∧ (tagStep cli repo ref s).val = some e ∧
        (tagStep cli repo ref s).events = [Event.tagTrusted ri t ref (some e) wr] ∧
        (tagStep cli repo ref s).st.fs = s.fs) ∨
    ((tagStep cli repo ref s).val = none ∧
        TagShape repo ref s.trustedRef (tagStep cli repo ref s).events ∧
        (tagStep cli repo ref s).st.fs = s.fs ∧ (tagStep cli repo ref s).st.image = s.image ∧
        (tagStep cli repo ref s).st.containerIDFile = s.containerIDFile) := by
  rcases hT : s.trustedRef with _ | t
  · refine Or.inr (Or.inr ⟨?_, ?_, ?_, ?_, ?_⟩)
    · simp [tagStep, hT]
    · exact .skip (Or.inl rfl) (by simp [tagStep, hT])
    all_goals simp [tagStep, hT]
  · rcases hd : L.HasDigest ref with _ | _
    · rcases he : L.ParseRepositoryInfo repo with e | ri
      · exact Or.inl ⟨t, e, rfl, rfl, rfl, by simp [tagStep, hT, hd, he],
          by simp [tagStep, hT, hd, he], by simp [tagStep, hT, hd, he]⟩
      · rcases hr : (cli.tagTrusted ri t ref s.world).1.1 with _ | e
        · refine Or.inr (Or.inr ⟨?_, ?_, ?_, ?_, ?_⟩)
          · simp [tagStep, hT, hd, he, hr]
          · exact .tagged (cli.tagTrusted ri t ref s.world).1.2 t ri rfl hd he
              (by simp [tagStep, hT, hd, he, hr])
          all_goals simp [tagStep, hT, hd, he]
        · exact Or.inr (Or.inl ⟨t, ri, e, (cli.tagTrusted ri t ref s.world).1.2, rfl, rfl, rfl,
            by simp [tagStep, hT, hd, he, hr],
            by simp [tagStep, hT, hd, he, hr], by simp [tagStep, hT, hd, he]⟩)
    · refine Or.inr (Or.inr ⟨?_, ?_, ?_, ?_, ?_⟩)
      · simp [tagStep, hT, hd]
      · exact .skip (Or.inr hd) (by simp [tagStep, hT, hd])
      all_goals simp [tagStep, hT, hd]

theorem pullAndRetry_shape {L : Lib} {σ : Type} (cli : DockerCli L σ) (name : String)
    (d : String → L.Merged) (repo : String) (ref : L.Ref) (diag : Event L) (image0 : String)
    (tref0 : Option L.Ref) (T : List (Event L)) (s : St L σ)
    (hT : TrustShape repo ref image0 tref0 T s.trustedRef s.image) :
    RecoverShape (createPath L name) d repo ref diag image0 tref0 s.containerIDFile s.fs
      (pullAndRetry cli name d repo ref s).val
      (diag :: (T ++ (pullAndRetry cli name d repo ref s).events))
      (pullAndRetry cli name d repo ref s).st.fs := by
  obtain ⟨tl, hq, hev, hfs, himg, htr, hcid⟩ := pullStep_shape cli s
  rcases hp : (pullStep cli s).val with _ | e
  · rcases tagStep_cases cli repo ref (pullStep cli s).st with
      ⟨t, e, h1, h2, h3, hv, hg, hf⟩ | ⟨t, ri, e, wr, h1, h2, h3, hv, hg, hf⟩ |
      ⟨hv, hG, hf, hi, hc⟩
    · refine .repoInfoError T _ _ tl t e hT hq (htr ▸ h1) h2 h3 ?_ ?_ ?_
      · simp only [pullAndRetry, hp, hv]
      · simp only [pullAndRetry, hp, hv, hev, hg, List.append_nil]
      · simp only [pullAndRetry, hp, hv, hf, hfs]
    · refine .tagError wr T _ _ tl t ri e hT hq (htr ▸ h1) h2 h3 ?_ ?_ ?_
      · simp only [pullAndRetry, hp, hv]
      · simp only [pullAndRetry, hp, hv, hev, hg, List.cons_append]
      · simp only [pullAndRetry, hp, hv, hf, hfs]
    · have hR := retry_shape cli name d (tagStep cli repo ref (pullStep cli s).st).st
      rw [hi, hc, hf, himg, hcid, hfs] at hR
      have h1 : (pullAndRetry cli name d repo ref s).val
          = (retry cli name d (tagStep cli repo ref (pullStep cli s).st).st).val := by
        simp only [pullAndRetry, hp, hv]
      have h2 : (pullAndRetry cli name d repo ref s).st
          = (retry cli name d (tagStep cli repo ref (pullStep cli s).st).st).st := by
        simp only [pullAndRetry, hp, hv]
      rw [h1, h2]
      refine .retried T _ _ tl _ _ hT hq (htr ▸ hG) hR ?_
      simp only [pullAndRetry, hp, hv, hev, List.cons_append]
  · refine .pullError T _ _ e tl hT hq ?_ ?_ ?_
    · simp only [pullAndRetry, hp]
    · simp only [pullAndRetry, hp, hev]
    · simp only [pullAndRetry, hp, hfs]

theorem recover_shape {L : Lib} {σ : Type} (cli : DockerCli L σ) (name : String)
    (d : String → L.Merged) (repo : String) (ref : L.Ref) (s : St L σ) :
    RecoverShape (createPath L name) d repo ref
      (Event.write Chan.err ("Unable to find image '" ++ L.ImageName ref repo ++ "' locally\n"))
      s.image s.trustedRef s.containerIDFile s.fs
      (recover cli name d repo ref s).val (recover cli name d repo ref s).events
      (recover cli name d repo ref s).st.fs := by
  by_cases hc : (L.isTrusted && !L.HasDigest ref && s.trustedRef.isNone) = true
  · have hc2 : L.isTrusted = true ∧ L.HasDigest ref = false ∧ s.trustedRef = none := by
      simpa [Bool.and_eq_true, Option.isNone_iff_eq_none, and_assoc] using hc
    rcases resolveTrusted_cases cli repo ref s with
      ⟨e, wr, hv, he, hf⟩ | ⟨wr, hv, he, hf⟩ | ⟨t, wr, hv, he, hf, ht, hi, hcid⟩
    · refine .trustError wr e hc2.1 hc2.2.1 hc2.2.2 ?_ ?_ ?_
      · simp only [recover, hc, if_true, hv]
      · simp only [recover, hc, if_true, hv, he]
      · simp only [recover, hc, if_true, hv, hf]
    · refine .trustNil wr hc2.1 hc2.2.1 hc2.2.2 ?_ ?_ ?_
      · simp only [recover, hc, if_true, hv]
      · simp only [recover, hc, if_true, hv, he]
      · simp only [recover, hc, if_true, hv, hf]
    · have hT : TrustShape repo ref s.image s.trustedRef
          [Event.trustedReference repo ref (.ok (some t)) wr]
          (resolveTrusted cli repo ref s).st.trustedRef (resolveTrusted cli repo ref s).st.image :=
        .resolved wr t hc2.1 hc2.2.1 hc2.2.2 rfl ht hi
      have h := pullAndRetry_shape cli name d repo ref
        (Event.write Chan.err ("Unable to find image '" ++ L.ImageName ref repo ++ "' locally\n"))
        s.image s.trustedRef _ (resolveTrusted cli repo ref s).st hT
      rw [hcid, hf] at h
      simpa only [recover, hc, if_true, hv, he] using h
  · have hc2 : ¬ (L.isTrusted = true ∧ L.HasDigest ref = false ∧ s.trustedRef = none) := by
      simpa [Bool.and_eq_true, Option.isNone_iff_eq_none, and_assoc] using hc
    have h := pullAndRetry_shape cli name d repo ref
      (Event.write Chan.err ("Unable to find image '" ++ L.ImageName ref repo ++ "' locally\n"))
      s.image s.trustedRef [] s (.skip hc2 rfl rfl rfl)
    simpa only [recover, hc, if_false, List.nil_append] using h

theorem eagerPull_cases {L : Lib} {σ : Type} (cli : DockerCli L σ) (pull : Bool)
    (repo : String) (ref : L.Ref) (s : St L σ) (hs : s.trustedRef = none) :
    (∃ e wr, (eagerPull cli pull repo ref s).val = some (.error e) ∧
        (eagerPull cli pull repo ref s).events = [Event.trustedReference repo ref (.error e) wr] ∧
        pull = true ∧ L.isTrusted = true ∧ L.HasDigest ref = false ∧
        (eagerPull cli pull repo ref s).st.fs = s.fs) ∨
    (∃ wr, (eagerPull cli pull repo ref s).val = some .nilDeref ∧
        (eagerPull cli pull repo ref s).events = [Event.trustedReference repo ref (.ok none) wr] ∧
        pull = true ∧ L.isTrusted = true ∧ L.HasDigest ref = false ∧
        (eagerPull cli pull repo ref s).st.fs = s.fs) ∨
    (∃ e tl, (eagerPull cli pull repo ref s).val = some (.error e) ∧
        (eagerPull cli pull repo ref s).events =
          Event.write Chan.err ("Pulling image '" ++ L.ImageName ref repo ++ "'\n") ::
            Event.pull s.image Chan.err (some e) :: tl ∧
        Quiet tl ∧ pull = true ∧ L.isTrusted = false ∧
        (eagerPull cli pull repo ref s).st.fs = s.fs) ∨
    ((eagerPull cli pull repo ref s).val = none ∧
        EagerShape pull repo ref
          (Event.write Chan.err ("Pulling image '" ++ L.ImageName ref repo ++ "'\n")) s.image
          (eagerPull cli pull repo ref s).events (eagerPull cli pull repo ref s).st.trustedRef
          (eagerPull cli pull repo ref s).st.image ∧
        (eagerPull cli pull repo ref s).st.fs = s.fs ∧
        (eagerPull cli pull repo ref s).st.containerIDFile = s.containerIDFile) := by
  rcases hp : pull with _ | _
  · exact Or.inr (Or.inr (Or.inr ⟨by simp [eagerPull],
      .skip (Or.inl rfl) (by simp [eagerPull]) (by simp [eagerPull, hs]) (by simp [eagerPull]),
      by simp [eagerPull], by simp [eagerPull]⟩))
  · rcases ht : L.isTrusted with _ | _
    · obtain ⟨tl, hq, hev, hfs, himg, htr, hcid⟩ := pullStep_shape cli s
      rcases hv : (pullStep cli s).val with _ | e
      · refine Or.inr (Or.inr (Or.inr ⟨by simp [eagerPull, ht, hv], ?_, by simp [eagerPull, ht, hfs],
          by simp [eagerPull, ht, hcid]⟩))
        exact .pulled tl rfl ht hq (by simp [eagerPull, ht, hev, hv])
          (by simp [eagerPull, ht, htr, hs]) (by simp [eagerPull, ht, himg])
      · exact Or.inr (Or.inr (Or.inl ⟨e, tl, by simp [eagerPull, ht, hv],
          by simp [eagerPull, ht, hev, hv], hq, rfl, rfl, by simp [eagerPull, ht, hfs]⟩))
    · rcases hd : L.HasDigest ref with _ | _
      · rcases resolveTrusted_cases cli repo ref s with
          ⟨e, wr, hv, he, hf⟩ | ⟨wr, hv, he, hf⟩ | ⟨t, wr, hv, he, hf, htr, hi, hcid⟩
        · exact Or.inl ⟨e, wr, by simp [eagerPull, ht, hd, hv], by simp [eagerPull, ht, hd, he],
            rfl, rfl, rfl, by simp [eagerPull, ht, hd, hf]⟩
        · exact Or.inr (Or.inl ⟨wr, by simp [eagerPull, ht, hd, hv],
            by simp [eagerPull, ht, hd, he], rfl, rfl, rfl, by simp [eagerPull, ht, hd, hf]⟩)
        · refine Or.inr (Or.inr (Or.inr ⟨by simp [eagerPull, ht, hd, hv], ?_,
            by simp [eagerPull, ht, hd, hf], by simp [eagerPull, ht, hd, hcid]⟩))
          exact .resolved wr t rfl ht hd (by simp [eagerPull, ht, hd, he])
            (by simp [eagerPull, ht, hd, htr]) (by simp [eagerPull, ht, hd, hi])
      · exact Or.inr (Or.inr (Or.inr ⟨by simp [eagerPull, ht, hd],
          .skip (Or.inr ⟨ht, hd⟩) (by simp [eagerPull, ht, hd]) (by simp [eagerPull, ht, hd, hs])
            (by simp [eagerPull, ht, hd]),
          by simp [eagerPull, ht, hd], by simp [eagerPull, ht, hd]⟩))

theorem createAndRecover_shape {L : Lib} {σ : Type} (cli : DockerCli L σ)
    (cfg : createConfig) (cid : Option cidFile) (fs : FS) (E : List (Event L)) (s : St L σ)
    (hE : EagerShape cfg.pull (parsedRepo L cfg.config.Image) (parsedRef L cfg.config.Image)
      (pullingEvent L cfg.config.Image) cfg.config.Image E s.trustedRef s.image)
    (hcid : s.containerIDFile = cid) (hfs : s.fs = fs) :
    BodyShape cfg cid fs
      (createAndRecover cli cfg.name (mergedConfig L cfg)
        (parsedRepo L cfg.config.Image) (parsedRef L cfg.config.Image) s).val
      (E ++ (createAndRecover cli cfg.name (mergedConfig L cfg)
        (parsedRepo L cfg.config.Image) (parsedRef L cfg.config.Image) s).events)
      (createAndRecover cli cfg.name (mergedConfig L cfg)
        (parsedRepo L cfg.config.Image) (parsedRef L cfg.config.Image) s).st.fs := by
  subst hcid hfs
  have hc : callCreate cli cfg.name (mergedConfig L cfg) s
      = ⟨(cli.call "POST" (createPath L cfg.name) (mergedConfig L cfg s.image)
              s.world).1,
          [Event.call "POST" (createPath L cfg.name) (mergedConfig L cfg s.image)
            s.image
            (cli.call "POST" (createPath L cfg.name) (mergedConfig L cfg s.image)
              s.world).1.1.statusCode
            (cli.call "POST" (createPath L cfg.name) (mergedConfig L cfg s.image)
              s.world).1.2
            (cli.call "POST" (createPath L cfg.name) (mergedConfig L cfg s.image)
              s.world).1.1.body],
          { s with world := (cli.call "POST" (createPath L cfg.name) (mergedConfig L cfg s.image)
              s.world).2 }⟩ := rfl
  generalize cli.call "POST" (createPath L cfg.name) (mergedConfig L cfg s.image)
    s.world = r at hc
  obtain ⟨⟨⟨body, status⟩, err⟩, w1⟩ := r
  simp only at hc
  by_cases h404 : status = 404
  · rcases err with _ | e
    · subst h404
      refine .nilError E _ _ body hE ?_ ?_ ?_ <;> simp [createAndRecover, hc]
    · by_cases hcont : strings.Contains e s.image = true
      · subst h404
        have hR := recover_shape cli cfg.name (mergedConfig L cfg)
          (parsedRepo L cfg.config.Image) (parsedRef L cfg.config.Image)
          { s with world := w1 }
        have h1 : createAndRecover cli cfg.name (mergedConfig L cfg)
              (parsedRepo L cfg.config.Image) (parsedRef L cfg.config.Image) s
            = ⟨(recover cli cfg.name (mergedConfig L cfg)
                  (parsedRepo L cfg.config.Image) (parsedRef L cfg.config.Image)
                  { s with world := w1 }).val,
                Event.call "POST" (createPath L cfg.name)
                    (mergedConfig L cfg s.image) s.image 404 (some e) body ::
                  (recover cli cfg.name (mergedConfig L cfg)
                    (parsedRepo L cfg.config.Image) (parsedRef L cfg.config.Image)
                    { s with world := w1 }).events,
                (recover cli cfg.name (mergedConfig L cfg)
                  (parsedRepo L cfg.config.Image) (parsedRef L cfg.config.Image)
                  { s with world := w1 }).st⟩ := by
          simp [createAndRecover, hc, hcont]
        rw [h1]
        exact .recovered E _ _ e body _ hE hcont hR rfl
      · refine .createError E _ _ status e body hE (fun h => hcont h.2) ?_ ?_ ?_ <;>
          simp [createAndRecover, hc, h404, hcont]
  · rcases err with _ | e
    · have hF := finish_shape (L := L) ⟨body, status⟩ { s with world := w1 }
      have h1 : createAndRecover cli cfg.name (mergedConfig L cfg)
            (parsedRepo L cfg.config.Image) (parsedRef L cfg.config.Image) s
          = ⟨(finish (L := L) ⟨body, status⟩ { s with world := w1 }).val,
              Event.call "POST" (createPath L cfg.name)
                  (mergedConfig L cfg s.image) s.image status none body ::
                (finish (L := L) ⟨body, status⟩ { s with world := w1 }).events,
              (finish (L := L) ⟨body, status⟩ { s with world := w1 }).st⟩ := by
        simp [createAndRecover, hc, h404]
      rw [h1]
      exact .created E _ _ status body _ hE h404 hF rfl
    · refine .createError E _ _ status e body hE (fun h => h404 h.1) ?_ ?_ ?_ <;>
        simp [createAndRecover, hc, h404]

theorem createBody_shape {L : Lib} {σ : Type} (cli : DockerCli L σ) (cfg : createConfig)
    (s : St L σ) (hs : s.trustedRef = none) (hi : s.image = cfg.config.Image) :
    BodyShape cfg s.containerIDFile s.fs (createBody cli cfg s).val (createBody cli cfg s).events
      (createBody cli cfg s).st.fs := by
  have hb : createBody cli cfg s =
      (match (eagerPull cli cfg.pull (parsedRepo L cfg.config.Image)
          (parsedRef L cfg.config.Image) s).val with
        | some o => ⟨o, (eagerPull cli cfg.pull (parsedRepo L cfg.config.Image)
            (parsedRef L cfg.config.Image) s).events,
            (eagerPull cli cfg.pull (parsedRepo L cfg.config.Image)
              (parsedRef L cfg.config.Image) s).st⟩
        | none =>
          ⟨(createAndRecover cli cfg.name (mergedConfig L cfg)
              (parsedRepo L cfg.config.Image) (parsedRef L cfg.config.Image)
              (eagerPull cli cfg.pull (parsedRepo L cfg.config.Image)
                (parsedRef L cfg.config.Image) s).st).val,
            (eagerPull cli cfg.pull (parsedRepo L cfg.config.Image)
              (parsedRef L cfg.config.Image) s).events ++
            (createAndRecover cli cfg.name (mergedConfig L cfg)
              (parsedRepo L cfg.config.Image) (parsedRef L cfg.config.Image)
              (eagerPull cli cfg.pull (parsedRepo L cfg.config.Image)
                (parsedRef L cfg.config.Image) s).st).events,
            (createAndRecover cli cfg.name (mergedConfig L cfg)
              (parsedRepo L cfg.config.Image) (parsedRef L cfg.config.Image)
              (eagerPull cli cfg.pull (parsedRepo L cfg.config.Image)
                (parsedRef L cfg.config.Image) s).st).st⟩) := rfl
  rw [hb]
  rcases eagerPull_cases cli cfg.pull (parsedRepo L cfg.config.Image)
      (parsedRef L cfg.config.Image) s hs with
    ⟨e, wr, hv, he, h1, h2, h3, hf⟩ | ⟨wr, hv, he, h1, h2, h3, hf⟩ |
    ⟨e, tl, hv, he, hq, h1, h2, hf⟩ | ⟨hv, hE, hf, hc⟩
  · simp only [hv]
    exact .trustError wr e h1 h2 h3 rfl he hf
  · simp only [hv]
    exact .trustNil wr h1 h2 h3 rfl he hf
  · simp only [hv]
    exact .pullError e tl h1 h2 hq rfl (by rw [he, hi]; rfl) hf
  · simp only [hv]
    rw [hi] at hE
    exact createAndRecover_shape cli cfg _ _ _ _ hE hc hf

theorem createContainer_shape {L : Lib} {σ : Type} (cli : DockerCli L σ)
    (cfg : createConfig) (w : σ) (fs : FS) :
    RunShape cfg fs (createContainer cli cfg w fs).result (createContainer cli cfg w fs).trace
      (createContainer cli cfg w fs).st.fs := by
  by_cases hc : cfg.cidfile = ""
  · refine .noFile hc ?_
    have h := createBody_shape cli cfg
      { world := w, fs := fs, image := cfg.config.Image, trustedRef := none,
        containerIDFile := none } rfl rfl
    simpa [createContainer, hc] using h
  · rcases hg : newCIDFile fs cfg.cidfile with ⟨r, fs0⟩
    rcases r with e | c
    · have hfs : fs0 = fs := by
        unfold newCIDFile at hg
        split at hg
        · simp only [Prod.mk.injEq] at hg
          exact hg.2.symm
        · split at hg
          · simp only [Prod.mk.injEq] at hg
            exact hg.2.symm
          · simp at hg
      subst hfs
      refine .guardError e hc hg ?_ ?_ ?_ <;> simp [createContainer, hc, hg]
    · refine .withFile c fs0 hc hg ?_
      have h := createBody_shape cli cfg
        { world := w, fs := fs0, image := cfg.config.Image, trustedRef := none,
          containerIDFile := some c } rfl rfl
      simpa [createContainer, hc, hg, cidFile.Close] using h

/-! ### The kind of each event -/

@[simp] theorem Event.isCreate_write {L : Lib} (c : Chan) (text : String) :
    (Event.write c text : Event L).isCreate = false := rfl

@[simp] theorem Event.isCreate_trustedReference {L : Lib} (repo : String) (ref : L.Ref) (res : Except Err (Option L.Ref)) (wr : List (Chan × String)) :
    (Event.trustedReference repo ref res wr : Event L).isCreate = false := rfl

@[simp] theorem Event.isCreate_pull {L : Lib} (image : String) (c : Chan) (res : Option Err) :
    (Event.pull image c res : Event L).isCreate = false := rfl

@[simp] theorem Event.isCreate_stream {L : Lib} (method path : String) (headers : List (String × List String)) (c : Chan) :
    (Event.stream method path headers c : Event L).isCreate = false := rfl

@[simp] theorem Event.isCreate_call {L : Lib} (method path : String) (d : L.Merged) (image : String) (status : Int) (err : Option Err)
    (body : L.Body) :
    (Event.call method path d image status err body : Event L).isCreate = true := rfl

@[simp] theorem Event.isCreate_tagTrusted {L : Lib} (ri : L.RepoInfo) (t ref : L.Ref) (res : Option Err) (wr : List (Chan × String)) :
    (Event.tagTrusted ri t ref res wr : Event L).isCreate = false := rfl

@[simp] theorem Event.isPull_write {L : Lib} (c : Chan) (text : String) :
    (Event.write c text : Event L).isPull = false := rfl

@[simp] theorem Event.isPull_trustedReference {L : Lib} (repo : String) (ref : L.Ref) (res : Except Err (Option L.Ref)) (wr : List (Chan × String)) :
    (Event.trustedReference repo ref res wr : Event L).isPull = false := rfl

@[simp] theorem Event.isPull_pull {L : Lib} (image : String) (c : Chan) (res : Option Err) :
    (Event.pull image c res : Event L).isPull = true := rfl

@[simp] theorem Event.isPull_stream {L : Lib} (method path : String) (headers : List (String × List String)) (c : Chan) :
    (Event.stream method path headers c : Event L).isPull = false := rfl

@[simp] theorem Event.isPull_call {L : Lib} (method path : String) (d : L.Merged) (image : String) (status : Int) (err : Option Err)
    (body : L.Body) :
    (Event.call method path d image status err body : Event L).isPull = false := rfl

@[simp] theorem Event.isPull_tagTrusted {L : Lib} (ri : L.RepoInfo) (t ref : L.Ref) (res : Option Err) (wr : List (Chan × String)) :
    (Event.tagTrusted ri t ref res wr : Event L).isPull = false := rfl

@[simp] theorem Event.isTrust_write {L : Lib} (c : Chan) (text : String) :
    (Event.write c text : Event L).isTrust = false := rfl

@[simp] theorem Event.isTrust_trustedReference {L : Lib} (repo : String) (ref : L.Ref) (res : Except Err (Option L.Ref)) (wr : List (Chan × String)) :
    (Event.trustedReference repo ref res wr : Event L).isTrust = true := rfl

@[simp] theorem Event.isTrust_pull {L : Lib} (image : String) (c : Chan) (res : Option Err) :
    (Event.pull image c res : Event L).isTrust = false := rfl

@[simp] theorem Event.isTrust_stream {L : Lib} (method path : String) (headers : List (String × List String)) (c : Chan) :
    (Event.stream method path headers c : Event L).isTrust = false := rfl

@[simp] theorem Event.isTrust_call {L : Lib} (method path : String) (d : L.Merged) (image : String) (status : Int) (err : Option Err)
    (body : L.Body) :
    (Event.call method path d image status err body : Event L).isTrust = false := rfl

@[simp] theorem Event.isTrust_tagTrusted {L : Lib} (ri : L.RepoInfo) (t ref : L.Ref) (res : Option Err) (wr : List (Chan × String)) :
    (Event.tagTrusted ri t ref res wr : Event L).isTrust = false := rfl

@[simp] theorem Event.isTag_write {L : Lib} (c : Chan) (text : String) :
    (Event.write c text : Event L).isTag = false := rfl

@[simp] theorem Event.isTag_trustedReference {L : Lib} (repo : String) (ref : L.Ref) (res : Except Err (Option L.Ref)) (wr : List (Chan × String)) :
    (Event.trustedReference repo ref res wr : Event L).isTag = false := rfl

@[simp] theorem Event.isTag_pull {L : Lib} (image : String) (c : Chan) (res : Option Err) :
    (Event.pull image c res : Event L).isTag = false := rfl

@[simp] theorem Event.isTag_stream {L : Lib} (method path : String) (headers : List (String × List String)) (c : Chan) :
    (Event.stream method path headers c : Event L).isTag = false := rfl

@[simp] theorem Event.isTag_call {L : Lib} (method path : String) (d : L.Merged) (image : String) (status : Int) (err : Option Err)
    (body : L.Body) :
    (Event.call method path d image status err body : Event L).isTag = false := rfl

@[simp] theorem Event.isTag_tagTrusted {L : Lib} (ri : L.RepoInfo) (t ref : L.Ref) (res : Option Err) (wr : List (Chan × String)) :
    (Event.tagTrusted ri t ref res wr : Event L).isTag = true := rfl

@[simp] theorem Event.isWriteTo_write {L : Lib} (k : Chan) (c : Chan) (text : String) :
    (Event.write c text : Event L).isWriteTo k = decide (c = k) := rfl

@[simp] theorem Event.isWriteTo_trustedReference {L : Lib} (k : Chan) (repo : String) (ref : L.Ref) (res : Except Err (Option L.Ref)) (wr : List (Chan × String)) :
    (Event.trustedReference repo ref res wr : Event L).isWriteTo k = false := rfl

@[simp] theorem Event.isWriteTo_pull {L : Lib} (k : Chan) (image : String) (c : Chan) (res : Option Err) :
    (Event.pull image c res : Event L).isWriteTo k = false := rfl

@[simp] theorem Event.isWriteTo_stream {L : Lib} (k : Chan) (method path : String) (headers : List (String × List String)) (c : Chan) :
    (Event.stream method path headers c : Event L).isWriteTo k = false := rfl

@[simp] theorem Event.isWriteTo_call {L : Lib} (k : Chan) (method path : String) (d : L.Merged) (image : String) (status : Int) (err : Option Err)
    (body : L.Body) :
    (Event.call method path d image status err body : Event L).isWriteTo k = false := rfl

@[simp] theorem Event.isWriteTo_tagTrusted {L : Lib} (k : Chan) (ri : L.RepoInfo) (t ref : L.Ref) (res : Option Err) (wr : List (Chan × String)) :
    (Event.tagTrusted ri t ref res wr : Event L).isWriteTo k = false := rfl

@[simp] theorem Event.notCreate_eq {L : Lib} (e : Event L) : e.notCreate = !e.isCreate := rfl

@[simp] theorem Event.notTag_eq {L : Lib} (e : Event L) : e.notTag = !e.isTag := rfl

/-! ## Stretches of a trace without events of some kind -/

@[simp] theorem avoids_nil {L : Lib} (p : Event L → Bool) : Avoids p [] := by
  intro e he
  cases he

@[simp] theorem avoids_cons {L : Lib} (p : Event L → Bool) (a : Event L) (l : List (Event L)) :
    Avoids p (a :: l) ↔ p a = false ∧ Avoids p l := by
  simp [Avoids]

@[simp] theorem avoids_append {L : Lib} (p : Event L → Bool) (l m : List (Event L)) :
    Avoids p (l ++ m) ↔ Avoids p l ∧ Avoids p m := by
  simp only [Avoids, List.mem_append]
  constructor
  · intro h
    exact ⟨fun e he => h e (Or.inl he), fun e he => h e (Or.inr he)⟩
  · rintro ⟨h1, h2⟩ e (he | he)
    · exact h1 e he
    · exact h2 e he

theorem Avoids.filter {L : Lib} {p : Event L → Bool} {l : List (Event L)} (h : Avoids p l) :
    l.filter p = [] := by
  rw [List.filter_eq_nil_iff]
  intro e he
  simp [h e he]

theorem Avoids.countP {L : Lib} {p : Event L → Bool} {l : List (Event L)} (h : Avoids p l) :
    l.countP p = 0 := by
  rw [List.countP_eq_zero]
  intro e he
  simp [h e he]

theorem Avoids.not_mem {L : Lib} {p : Event L → Bool} {l : List (Event L)} (h : Avoids p l)
    {e : Event L} (he : p e = true) : e ∉ l := by
  intro hm
  rw [h e hm] at he
  cases he

theorem Quiet.avoids_isCreate {L : Lib} {q : List (Event L)} (h : Quiet q) :
    Avoids Event.isCreate q := by
  intro e he
  have := h e he
  cases e <;> simp_all [Event.quiet, Event.isCreate]

theorem Quiet.avoids_isPull {L : Lib} {q : List (Event L)} (h : Quiet q) :
    Avoids Event.isPull q := by
  intro e he
  have := h e he
  cases e <;> simp_all [Event.quiet, Event.isPull]

theorem Quiet.avoids_isTrust {L : Lib} {q : List (Event L)} (h : Quiet q) :
    Avoids Event.isTrust q := by
  intro e he
  have := h e he
  cases e <;> simp_all [Event.quiet, Event.isTrust]

theorem Quiet.avoids_isTag {L : Lib} {q : List (Event L)} (h : Quiet q) :
    Avoids Event.isTag q := by
  intro e he
  have := h e he
  cases e <;> simp_all [Event.quiet, Event.isTag]

theorem Quiet.avoids_out {L : Lib} {q : List (Event L)} (h : Quiet q) :
    Avoids (Event.isWriteTo Chan.out) q := by
  intro e he
  have := h e he
  cases e <;> simp_all [Event.quiet, Event.isWriteTo]

theorem quiet_warningEvents (L : Lib) (ws : List String) : Quiet (warningEvents L ws) := by
  intro e he
  simp only [warningEvents, List.mem_map] at he
  obtain ⟨w, _, rfl⟩ := he
  rfl

theorem FinishShape.quiet {L : Lib} {body : L.Body} {cid : Option cidFile} {fs : FS}
    {o : Outcome} {tr : List (Event L)} {fs1 : FS} (h : FinishShape body cid fs o tr fs1) :
    Quiet tr := by
  cases h with
  | decodeError e hd ho ht hf => subst ht; intro e he; cases he
  | writeError resp c e hd hc hw ho ht hf => subst ht; exact quiet_warningEvents L _
  | okNoFile resp hd hc ho ht hf => subst ht; exact quiet_warningEvents L _
  | okFile resp c c1 hd hc hw ho ht => subst ht; exact quiet_warningEvents L _

/-! ### Cutting a trace at its first create request -/

theorem creates_append {L : Lib} (l m : List (Event L)) :
    creates (l ++ m) = creates l ++ creates m := by
  simp [creates]

theorem creates_avoids {L : Lib} {l : List (Event L)} (h : Avoids Event.isCreate l) :
    creates l = [] := h.filter

theorem creates_call {L : Lib} (method path : String) (d : L.Merged) (image : String)
    (status : Int) (err : Option Err) (body : L.Body) (l : List (Event L)) :
    creates (Event.call method path d image status err body :: l) =
      Event.call method path d image status err body :: creates l := by
  simp [creates, Event.isCreate]

theorem beforeFirstCreate_avoids {L : Lib} {l : List (Event L)}
    (h : Avoids Event.isCreate l) : beforeFirstCreate l = l := by
  unfold beforeFirstCreate
  rw [List.takeWhile_eq_self_iff]
  intro e he
  simp [Event.notCreate, h e he]

theorem beforeFirstCreate_call {L : Lib} {pre : List (Event L)}
    (h : Avoids Event.isCreate pre) (method path : String) (d : L.Merged) (image : String)
    (status : Int) (err : Option Err) (body : L.Body) (l : List (Event L)) :
    beforeFirstCreate (pre ++ Event.call method path d image status err body :: l) = pre := by
  unfold beforeFirstCreate
  rw [List.takeWhile_append_of_pos (fun e he => by simp [Event.notCreate, h e he])]
  simp [List.takeWhile_cons, Event.notCreate, Event.isCreate]

theorem afterFirstCreate_avoids {L : Lib} {l : List (Event L)}
    (h : Avoids Event.isCreate l) : afterFirstCreate l = [] := by
  unfold afterFirstCreate
  have : l.dropWhile Event.notCreate = [] := by
    rw [List.dropWhile_eq_nil_iff]
    intro e he
    simp [Event.notCreate, h e he]
  rw [this]
  rfl

theorem afterFirstCreate_call {L : Lib} {pre : List (Event L)}
    (h : Avoids Event.isCreate pre) (method path : String) (d : L.Merged) (image : String)
    (status : Int) (err : Option Err) (body : L.Body) (l : List (Event L)) :
    afterFirstCreate (pre ++ Event.call method path d image status err body :: l) = l := by
  unfold afterFirstCreate
  rw [List.dropWhile_append_of_pos (fun e he => by simp [Event.notCreate, h e he])]
  simp [List.dropWhile_cons, Event.notCreate, Event.isCreate]

/-! ### What the parts of a run leave out -/

theorem Event.quiet_kinds {L : Lib} {e : Event L} (h : e.quiet = true) :
    e.isCreate = false ∧ e.isPull = false ∧ e.isTrust = false ∧ e.isTag = false ∧
      e.isWriteTo Chan.out = false := by
  cases e <;> simp_all [Event.quiet]

theorem pullingEvent_quiet (L : Lib) (image : String) : (pullingEvent L image).quiet = true :=
  rfl

theorem unableEvent_quiet (L : Lib) (image : String) : (unableEvent L image).quiet = true :=
  rfl

theorem TrustShape.avoidsT {L : Lib} {repo : String} {ref : L.Ref} {image0 : String}
    {tref0 : Option L.Ref} {T : List (Event L)} {tref1 : Option L.Ref} {image1 : String}
    (h : TrustShape repo ref image0 tref0 T tref1 image1) :
    Avoids Event.isCreate T ∧ Avoids Event.isPull T ∧ Avoids Event.isTag T ∧
      Avoids (Event.isWriteTo Chan.out) T := by
  cases h with
  | skip hn hT ht hi => subst hT; simp
  | resolved wr t h1 h2 h3 hT ht hi =>
    subst hT
    simp

theorem TagShape.avoidsG {L : Lib} {repo : String} {ref : L.Ref} {tref1 : Option L.Ref}
    {G : List (Event L)} (h : TagShape repo ref tref1 G) :
    Avoids Event.isCreate G ∧ Avoids Event.isPull G ∧ Avoids Event.isTrust G ∧
      Avoids (Event.isWriteTo Chan.out) G := by
  cases h with
  | skip hn hG => subst hG; simp
  | tagged wr t ri h1 h2 h3 hG =>
    subst hG
    simp

theorem EagerShape.avoidsE {L : Lib} {pull : Bool} {repo : String} {ref : L.Ref}
    {pulling : Event L} {image0 : String} {E : List (Event L)} {tref1 : Option L.Ref}
    {image1 : String} (hp : pulling.quiet = true)
    (h : EagerShape pull repo ref pulling image0 E tref1 image1) :
    Avoids Event.isCreate E ∧ Avoids Event.isTag E ∧ Avoids (Event.isWriteTo Chan.out) E := by
  have hk := Event.quiet_kinds hp
  cases h with
  | skip hn hE ht hi => subst hE; simp
  | resolved wr t h1 h2 h3 hE ht hi =>
    subst hE
    simp
  | pulled tl h1 h2 hq hE ht hi =>
    subst hE
    simp [hk, hq.avoids_isCreate, hq.avoids_isTag, hq.avoids_out]

theorem RetryShape.avoidsR {L : Lib} {path : String} {d : String → L.Merged} {image : String}
    {cid : Option cidFile} {fs : FS} {o : Outcome} {tr : List (Event L)} {fs1 : FS}
    (h : RetryShape path d image cid fs o tr fs1) :
    Avoids Event.isPull tr ∧ Avoids Event.isTrust tr ∧ Avoids Event.isTag tr ∧
      Avoids (Event.isWriteTo Chan.out) tr := by
  cases h with
  | callError status e b0 ho ht hf => subst ht; simp
  | called status body F hF ht =>
    subst ht
    simp [hF.quiet.avoids_isPull, hF.quiet.avoids_isTrust, hF.quiet.avoids_isTag,
      hF.quiet.avoids_out]

/-! ### The trust resolver and the tag operation -/

theorem RecoverShape.trustR {L : Lib} {path : String} {d : String → L.Merged} {repo : String}
    {ref : L.Ref} {diag : Event L} {image0 : String} {tref0 : Option L.Ref}
    {cid : Option cidFile} {fs : FS} {o : Outcome} {tr : List (Event L)} {fs1 : FS}
    (hd : diag.quiet = true) (h0 : tref0 ≠ none → L.isTrusted = true)
    (h : RecoverShape path d repo ref diag image0 tref0 cid fs o tr fs1) :
    (¬ (L.isTrusted = true ∧ L.HasDigest ref = false) →
        Avoids Event.isTrust tr ∧ Avoids Event.isTag tr) ∧
      tr.countP Event.isTrust ≤ 1 ∧ (tref0 ≠ none → tr.countP Event.isTrust = 0) := by
  have hk := Event.quiet_kinds hd
  have hT : ∀ {T tref1 image1}, TrustShape repo ref image0 tref0 T tref1 image1 →
      (¬ (L.isTrusted = true ∧ L.HasDigest ref = false) → T = []) ∧
      T.countP Event.isTrust ≤ 1 ∧ (tref0 ≠ none → T = []) ∧ Avoids Event.isTag T ∧
      (tref1 ≠ none → L.isTrusted = true) := by
    intro T tref1 image1 hT
    cases hT with
    | skip hn hT ht hi => subst hT ht; simpa using h0
    | resolved wr t h1 h2 h3 hT ht hi => subst hT; simp [h1, h2, h3, List.countP_cons]
  cases h with
  | trustError wr e h1 h2 h3 ho ht hf => subst ht; simp [hk, h1, h2, h3, List.countP_cons]
  | trustNil wr h1 h2 h3 ho ht hf => subst ht; simp [hk, h1, h2, h3, List.countP_cons]
  | pullError T tref1 image1 e tl hT' hq ho ht hf =>
    subst ht
    obtain ⟨a1, a2, a3, a4, -⟩ := hT hT'
    refine ⟨fun hn => ?_, ?_, fun hn => ?_⟩
    · simp [a1 hn, hk, hq.avoids_isTrust, hq.avoids_isTag]
    · simpa [List.countP_cons, List.countP_append, hk, hq.avoids_isTrust.countP] using a2
    · simp [a3 hn, List.countP_cons, hk, hq.avoids_isTrust.countP]
  | repoInfoError T tref1 image1 tl t e hT' hq h1 h2 h3 ho ht hf =>
    subst ht
    obtain ⟨a1, a2, a3, a4, -⟩ := hT hT'
    refine ⟨fun hn => ?_, ?_, fun hn => ?_⟩
    · simp [a1 hn, hk, hq.avoids_isTrust, hq.avoids_isTag]
    · simpa [List.countP_cons, List.countP_append, hk, hq.avoids_isTrust.countP] using a2
    · simp [a3 hn, List.countP_cons, hk, hq.avoids_isTrust.countP]
  | tagError wr T tref1 image1 tl t ri e hT' hq h1 h2 h3 ho ht hf =>
    subst ht
    obtain ⟨a1, a2, a3, a4, a5⟩ := hT hT'
    have htr : L.isTrusted = true := a5 (by simp [h1])
    refine ⟨fun hn => absurd ⟨htr, h2⟩ hn, ?_, fun hn => ?_⟩
    · simpa [List.countP_cons, List.countP_append, hk, hq.avoids_isTrust.countP] using a2
    · simp [a3 hn, List.countP_cons, List.countP_append, hk, hq.avoids_isTrust.countP]
  | retried T tref1 image1 tl G R hT' hq hG hR ht =>
    subst ht
    obtain ⟨a1, a2, a3, a4, a5⟩ := hT hT'
    obtain ⟨-, r2, r3, -⟩ := hR.avoidsR
    obtain ⟨-, -, g3, -⟩ := hG.avoidsG
    have hGtag : ¬ (L.isTrusted = true ∧ L.HasDigest ref = false) → G = [] := by
      intro hn
      cases hG with
      | skip _ hG => exact hG
      | tagged wr t ri h1 h2 h3 hG => exact absurd ⟨a5 (by simp [h1]), h2⟩ hn
    refine ⟨fun hn => ?_, ?_, fun hn => ?_⟩
    · simp [a1 hn, hGtag hn, hk, hq.avoids_isTrust, hq.avoids_isTag, r2, r3]
    · simpa [List.countP_cons, List.countP_append, hk, hq.avoids_isTrust.countP, g3.countP,
        r2.countP] using a2
    · simp [a3 hn, List.countP_cons, List.countP_append, hk, hq.avoids_isTrust.countP,
        g3.countP, r2.countP]

theorem EagerShape.trustE {L : Lib} {pull : Bool} {repo : String} {ref : L.Ref}
    {pulling : Event L} {image0 : String} {E : List (Event L)} {tref1 : Option L.Ref}
    {image1 : String} (hp : pulling.quiet = true)
    (h : EagerShape pull repo ref pulling image0 E tref1 image1) :
    (¬ (L.isTrusted = true ∧ L.HasDigest ref = false) → Avoids Event.isTrust E) ∧
      (tref1 ≠ none → L.isTrusted = true) ∧
      (tref1 = none → E.countP Event.isTrust = 0) ∧ E.countP Event.isTrust ≤ 1 := by
  have hk := Event.quiet_kinds hp
  cases h with
  | skip hn hE ht hi => subst hE ht; simp
  | resolved wr t h1 h2 h3 hE ht hi => subst hE ht; simp [h2, h3, List.countP_cons]
  | pulled tl h1 h2 hq hE ht hi =>
    subst hE ht
    simp [hk, hq.avoids_isTrust, hq.avoids_isTrust.countP, List.countP_cons]

theorem BodyShape.trustB {L : Lib} {cfg : createConfig} {cid : Option cidFile} {fs : FS}
    {o : Outcome} {tr : List (Event L)} {fs1 : FS} (h : BodyShape cfg cid fs o tr fs1) :
    (¬ (L.isTrusted = true ∧ L.HasDigest (parsedRef L cfg.config.Image) = false) →
        Avoids Event.isTrust tr ∧ Avoids Event.isTag tr) ∧
      tr.countP Event.isTrust ≤ 1 := by
  have hp := pullingEvent_quiet L cfg.config.Image
  have hk := Event.quiet_kinds hp
  cases h with
  | trustError wr e h1 h2 h3 ho ht hf => subst ht; simp [h2, h3, List.countP_cons]
  | trustNil wr h1 h2 h3 ho ht hf => subst ht; simp [h2, h3, List.countP_cons]
  | pullError e tl h1 h2 hq ho ht hf =>
    subst ht
    simp [hk, hq.avoids_isTrust, hq.avoids_isTag, hq.avoids_isTrust.countP, List.countP_cons]
  | nilError E tref1 image1 b0 hE ho ht hf =>
    subst ht
    obtain ⟨e1, e2, e3, e4⟩ := hE.trustE hp
    obtain ⟨-, a2, -⟩ := hE.avoidsE hp
    refine ⟨fun hn => ?_, ?_⟩
    · simp [e1 hn, a2]
    · simpa [List.countP_append, List.countP_cons] using e4
  | createError E tref1 image1 status e b0 hE hn ho ht hf =>
    subst ht
    obtain ⟨e1, e2, e3, e4⟩ := hE.trustE hp
    obtain ⟨-, a2, -⟩ := hE.avoidsE hp
    refine ⟨fun hn => ?_, ?_⟩
    · simp [e1 hn, a2]
    · simpa [List.countP_append, List.countP_cons] using e4
  | created E tref1 image1 status body F hE hs hF ht =>
    subst ht
    obtain ⟨e1, e2, e3, e4⟩ := hE.trustE hp
    obtain ⟨-, a2, -⟩ := hE.avoidsE hp
    refine ⟨fun hn => ?_, ?_⟩
    · simp [e1 hn, a2, hF.quiet.avoids_isTrust, hF.quiet.avoids_isTag]
    · simpa [List.countP_append, List.countP_cons, hF.quiet.avoids_isTrust.countP] using e4
  | recovered E tref1 image1 e b0 R hE hc hR ht =>
    subst ht
    obtain ⟨e1, e2, e3, e4⟩ := hE.trustE hp
    obtain ⟨-, a2, -⟩ := hE.avoidsE hp
    obtain ⟨r1, r2, r3⟩ := hR.trustR (unableEvent_quiet L cfg.config.Image) e2
    refine ⟨fun hn => ?_, ?_⟩
    · simp [e1 hn, a2, r1 hn]
    · rcases ht1 : tref1 with _ | t
      · have := e3 ht1
        simp only [List.countP_append, List.countP_cons, Event.isTrust_call, this]
        simpa using r2
      · have := r3 (by simp [ht1])
        simp only [List.countP_append, List.countP_cons, Event.isTrust_call, this]
        simpa using e4

theorem RunShape.trust {L : Lib} {cfg : createConfig} {fs : FS}
    {o : Outcome} {tr : List (Event L)} {fs1 : FS} (h : RunShape cfg fs o tr fs1) :
    (¬ (L.isTrusted = true ∧ L.HasDigest (parsedRef L cfg.config.Image) = false) →
        Avoids Event.isTrust tr ∧ Avoids Event.isTag tr) ∧
      tr.countP Event.isTrust ≤ 1 := by
  cases h with
  | noFile hc hB => exact hB.trustB
  | guardError e hc hg ho ht hf => subst ht; simp
  | withFile c fs0 hc hg hB => exact hB.trustB

/-- C4: in every run of `createContainer` the trust resolver and the trusted tag operation
are invoked only when trust mode is active and the parsed reference has no digest; with
trust mode active and a digest in the reference neither is invoked at all; and the trust
resolver is invoked at most once. -/
theorem createContainer_trust_resolver {L : Lib} {σ : Type} (cli : DockerCli L σ)
    (cfg : createConfig) (w : σ) (fs : FS) :
    ((∃ e ∈ (createContainer cli cfg w fs).trace, e.isTrust = true ∨ e.isTag = true) →
        L.isTrusted = true ∧ L.HasDigest (parsedRef L cfg.config.Image) = false) ∧
      (L.isTrusted = true → L.HasDigest (parsedRef L cfg.config.Image) = true →
        ∀ e ∈ (createContainer cli cfg w fs).trace, e.isTrust = false ∧ e.isTag = false) ∧
      (createContainer cli cfg w fs).trace.countP Event.isTrust ≤ 1 := by
  obtain ⟨h1, h2⟩ := (createContainer_shape cli cfg w fs).trust
  refine ⟨?_, ?_, h2⟩
  · rintro ⟨e, he, hk⟩
    by_contra hn
    obtain ⟨a1, a2⟩ := h1 hn
    rcases hk with hk | hk
    · exact a1.not_mem hk he
    · exact a2.not_mem hk he
  · intro ht hd e he
    obtain ⟨a1, a2⟩ := h1 (by simp [ht, hd])
    exact ⟨a1 e he, a2 e he⟩

/-- With trust mode active, `docker create alpine:latest` on an engine that misses the
image resolves the trusted reference: trust mode is on and `latest` is no digest. -/
theorem createContainer_trust_resolver_witness :
    (demoLib true).isTrusted = true ∧
      (demoLib true).HasDigest (parsedRef (demoLib true) (demoConfig false "").config.Image)
        = false :=
  (createContainer_trust_resolver (demoCli true) (demoConfig false "") demoMissingOnce
    demoFS).1 (by decide)

/-! ### The create requests of a run -/

theorem RetryShape.cutR {L : Lib} {path : String} {d : String → L.Merged} {image : String}
    {cid : Option cidFile} {fs : FS} {o : Outcome} {tr : List (Event L)} {fs1 : FS}
    (h : RetryShape path d image cid fs o tr fs1) :
    ∃ status err body F, tr = Event.call "POST" path (d image) image status err body :: F ∧ Quiet F ∧
      (∀ e, err = some e → o = .error e ∧ F = []) ∧
      (err = none → FinishShape body cid fs o F fs1) := by
  cases h with
  | callError status e b0 ho ht hf =>
    refine ⟨status, some e, b0, [], ht, ?_, ?_, ?_⟩
    · intro x hx
      cases hx
    · intro e1 he1
      cases he1
      exact ⟨ho, rfl⟩
    · intro h
      cases h
  | called status body F hF ht =>
    refine ⟨status, none, body, F, ht, hF.quiet, ?_, fun _ => hF⟩
    intro e he
    cases he

theorem RecoverShape.cut {L : Lib} {path : String} {d : String → L.Merged} {repo : String}
    {ref : L.Ref} {diag : Event L} {image0 : String} {tref0 : Option L.Ref}
    {cid : Option cidFile} {fs : FS} {o : Outcome} {tr : List (Event L)} {fs1 : FS}
    (hd : diag.quiet = true)
    (h : RecoverShape path d repo ref diag image0 tref0 cid fs o tr fs1) :
    (Avoids Event.isCreate tr ∧ o ≠ .nilDeref → ∃ e, o = .error e) ∧
    (Avoids Event.isCreate tr ∨
      ∃ pre image1 status err body F,
        tr = pre ++ Event.call "POST" path (d image1) image1 status err body :: F ∧
        Avoids Event.isCreate pre ∧ Event.pull image1 Chan.err none ∈ pre ∧ Quiet F ∧
        (∀ e, err = some e → o = .error e ∧ F = []) ∧
        (err = none → FinishShape body cid fs o F fs1)) := by
  have hk := Event.quiet_kinds hd
  cases h with
  | trustError wr e h1 h2 h3 ho ht hf =>
    subst ht ho
    exact ⟨fun _ => ⟨e, rfl⟩, Or.inl (by simp [hk])⟩
  | trustNil wr h1 h2 h3 ho ht hf =>
    subst ht ho
    exact ⟨fun h => absurd rfl h.2, Or.inl (by simp [hk])⟩
  | pullError T tref1 image1 e tl hT hq ho ht hf =>
    subst ht ho
    exact ⟨fun _ => ⟨e, rfl⟩, Or.inl (by simp [hk, hT.avoidsT.1, hq.avoids_isCreate])⟩
  | repoInfoError T tref1 image1 tl t e hT hq h1 h2 h3 ho ht hf =>
    subst ht ho
    exact ⟨fun _ => ⟨e, rfl⟩, Or.inl (by simp [hk, hT.avoidsT.1, hq.avoids_isCreate])⟩
  | tagError wr T tref1 image1 tl t ri e hT hq h1 h2 h3 ho ht hf =>
    subst ht ho
    exact ⟨fun _ => ⟨e, rfl⟩, Or.inl (by simp [hk, hT.avoidsT.1, hq.avoids_isCreate])⟩
  | retried T tref1 image1 tl G R hT hq hG hR ht =>
    subst ht
    obtain ⟨status, err, body, F, hRe, hF, h1, h2⟩ := hR.cutR
    subst hRe
    refine ⟨fun h => ?_, Or.inr ⟨diag :: (T ++ Event.pull image1 Chan.err none :: (tl ++ G)),
      image1, status, err, body, F, by simp, ?_, by simp, hF, h1, h2⟩⟩
    · have := h.1
      simp at this
    · simp [hk, hT.avoidsT.1, hq.avoids_isCreate, hG.avoidsG.1]

theorem BodyShape.creates_spec {L : Lib} {cfg : createConfig} {cid : Option cidFile}
    {fs : FS} {o : Outcome} {tr : List (Event L)} {fs1 : FS}
    (h : BodyShape cfg cid fs o tr fs1) :
    (creates tr).length ≤ 2 ∧
      ∀ c1 c2, creates tr = [c1, c2] →
        c1.notFound = true ∧
        (∃ image, Event.pull image Chan.err none ∈ betweenCreates tr) ∧
        (∃ image1 image2,
          c1.image = some image1 ∧ c2.image = some image2 ∧
          c1.request = some ("POST", createPath L cfg.name, mergedConfig L cfg image1) ∧
          c2.request = some ("POST", createPath L cfg.name, mergedConfig L cfg image2)) ∧
        ∀ e, c2.failure = some e → o = .error e ∧ afterSecondCreate tr = [] := by
  have hp := pullingEvent_quiet L cfg.config.Image
  have hk := Event.quiet_kinds hp
  cases h with
  | trustError wr e h1 h2 h3 ho ht hf => subst ht; simp [creates]
  | trustNil wr h1 h2 h3 ho ht hf => subst ht; simp [creates]
  | pullError e tl h1 h2 hq ho ht hf =>
    subst ht
    have : creates (pullingEvent L cfg.config.Image ::
        Event.pull cfg.config.Image Chan.err (some e) :: tl) = [] :=
      creates_avoids (by simp [hk, hq.avoids_isCreate])
    simp [this]
  | nilError E tref1 image1 b0 hE ho ht hf =>
    subst ht
    rw [creates_append, creates_avoids (hE.avoidsE hp).1, creates_call,
      creates_avoids (avoids_nil _)]
    simp
  | createError E tref1 image1 status e b0 hE hn ho ht hf =>
    subst ht
    rw [creates_append, creates_avoids (hE.avoidsE hp).1, creates_call,
      creates_avoids (avoids_nil _)]
    simp
  | created E tref1 image1 status body F hE hs hF ht =>
    subst ht
    rw [creates_append, creates_avoids (hE.avoidsE hp).1, creates_call,
      creates_avoids hF.quiet.avoids_isCreate]
    simp
  | recovered E tref1 image1 e b0 R hE hc hR ht =>
    subst ht
    have hEa := (hE.avoidsE hp).1
    rcases (hR.cut (unableEvent_quiet L cfg.config.Image)).2 with hRa |
      ⟨pre, image2, status, err, body2, F, hRe, hpre, hpull, hF, h1, h2⟩
    · rw [creates_append, creates_avoids hEa, creates_call, creates_avoids hRa]
      simp
    · subst hRe
      have hcr : creates (E ++ Event.call "POST" (createPath L cfg.name)
            (mergedConfig L cfg image1) image1 404 (some e) b0 ::
            (pre ++ Event.call "POST" (createPath L cfg.name)
              (mergedConfig L cfg image2) image2 status err body2 :: F))
          = [Event.call "POST" (createPath L cfg.name)
              (mergedConfig L cfg image1) image1 404 (some e) b0,
             Event.call "POST" (createPath L cfg.name)
              (mergedConfig L cfg image2) image2 status err body2] := by
        rw [creates_append, creates_avoids hEa, creates_call, creates_append,
          creates_avoids hpre, creates_call, creates_avoids hF.avoids_isCreate]
        rfl
      rw [hcr]
      refine ⟨by simp, ?_⟩
      intro c1 c2 heq
      simp only [List.cons.injEq, and_true] at heq
      obtain ⟨rfl, rfl⟩ := heq
      refine ⟨by simp [Event.notFound, hc], ⟨image2, ?_⟩, ⟨image1, image2, rfl, rfl, rfl, rfl⟩,
        ?_⟩
      · simp only [betweenCreates, afterFirstCreate_call hEa, beforeFirstCreate_call hpre]
        exact hpull
      · intro e2 he2
        simp only [afterSecondCreate, afterFirstCreate_call hEa, afterFirstCreate_call hpre]
        exact h1 e2 he2

/-! ### The image name at the two create requests -/

theorem RecoverShape.retry_image {L : Lib} {path : String} {d : String → L.Merged} {repo : String}
    {ref : L.Ref} {diag : Event L} {image0 : String} {tref0 : Option L.Ref}
    {cid : Option cidFile} {fs : FS} {o : Outcome} {tr : List (Event L)} {fs1 : FS}
    (hd : diag.quiet = true)
    (h : RecoverShape path d repo ref diag image0 tref0 cid fs o tr fs1) :
    ∀ c ∈ creates tr,
      (¬ (L.isTrusted = true ∧ L.HasDigest ref = false ∧ tref0 = none) →
        c.image = some image0) ∧
      (L.isTrusted = true → L.HasDigest ref = false → tref0 = none →
        ∃ t wr, Event.trustedReference repo ref (.ok (some t)) wr ∈ tr ∧
          c.image = some (L.ImageName t repo)) := by
  have hk := Event.quiet_kinds hd
  intro c hc
  cases h with
  | trustError wr e h1 h2 h3 ho ht hf =>
    subst ht
    rw [creates_avoids (by simp [hk])] at hc
    cases hc
  | trustNil wr h1 h2 h3 ho ht hf =>
    subst ht
    rw [creates_avoids (by simp [hk])] at hc
    cases hc
  | pullError T tref1 image1 e tl hT hq ho ht hf =>
    subst ht
    rw [creates_avoids (by simp [hk, hT.avoidsT.1, hq.avoids_isCreate])] at hc
    cases hc
  | repoInfoError T tref1 image1 tl t e hT hq h1 h2 h3 ho ht hf =>
    subst ht
    rw [creates_avoids (by simp [hk, hT.avoidsT.1, hq.avoids_isCreate])] at hc
    cases hc
  | tagError wr T tref1 image1 tl t ri e hT hq h1 h2 h3 ho ht hf =>
    subst ht
    rw [creates_avoids (by simp [hk, hT.avoidsT.1, hq.avoids_isCreate])] at hc
    cases hc
  | retried T tref1 image1 tl G R hT hq hG hR ht =>
    obtain ⟨status, err, body, F, hRe, hF, -, -⟩ := hR.cutR
    have ht2 : tr = (diag :: (T ++ Event.pull image1 Chan.err none :: (tl ++ G))) ++
        Event.call "POST" path (d image1) image1 status err body :: F := by
      rw [ht, hRe]; simp
    have hpre : Avoids Event.isCreate
        (diag :: (T ++ Event.pull image1 Chan.err none :: (tl ++ G))) := by
      simp [hk, hT.avoidsT.1, hq.avoids_isCreate, hG.avoidsG.1]
    rw [ht2, creates_append, creates_avoids hpre, creates_call,
      creates_avoids hF.avoids_isCreate] at hc
    simp only [List.nil_append, List.mem_singleton] at hc
    subst hc
    cases hT with
    | skip hn hT0 ht0 hi =>
      refine ⟨fun _ => by rw [hi]; rfl, fun h1 h2 h3 => absurd ⟨h1, h2, h3⟩ hn⟩
    | resolved wr t h1 h2 h3 hT0 ht0 hi =>
      refine ⟨fun hn => absurd ⟨h1, h2, h3⟩ hn, fun _ _ _ => ⟨t, wr, ?_, by rw [hi]; rfl⟩⟩
      rw [ht, hT0]
      simp

theorem BodyShape.retry_imageB {L : Lib} {cfg : createConfig} {cid : Option cidFile}
    {fs : FS} {o : Outcome} {tr : List (Event L)} {fs1 : FS}
    (h : BodyShape cfg cid fs o tr fs1) :
    ∀ c1 c2, creates tr = [c1, c2] →
      ((L.isTrusted = false ∨ L.HasDigest (parsedRef L cfg.config.Image) = true ∨
          cfg.pull = true) → c2.image = c1.image) ∧
      (L.isTrusted = true → L.HasDigest (parsedRef L cfg.config.Image) = false →
        cfg.pull = false →
          c1.image = some cfg.config.Image ∧
          ∃ t wr, Event.trustedReference (parsedRepo L cfg.config.Image)
              (parsedRef L cfg.config.Image) (.ok (some t)) wr ∈ tr ∧
            c2.image = some (L.ImageName t (parsedRepo L cfg.config.Image))) := by
  have hp := pullingEvent_quiet L cfg.config.Image
  have hk := Event.quiet_kinds hp
  intro c1 c2 hcr
  cases h with
  | trustError wr e h1 h2 h3 ho ht hf =>
    subst ht
    simp [creates] at hcr
  | trustNil wr h1 h2 h3 ho ht hf =>
    subst ht
    simp [creates] at hcr
  | pullError e tl h1 h2 hq ho ht hf =>
    subst ht
    rw [creates_avoids (by simp [hk, hq.avoids_isCreate])] at hcr
    cases hcr
  | nilError E tref1 image1 b0 hE ho ht hf =>
    subst ht
    rw [creates_append, creates_avoids (hE.avoidsE hp).1, creates_call,
      creates_avoids (avoids_nil _)] at hcr
    simp at hcr
  | createError E tref1 image1 status e b0 hE hn ho ht hf =>
    subst ht
    rw [creates_append, creates_avoids (hE.avoidsE hp).1, creates_call,
      creates_avoids (avoids_nil _)] at hcr
    simp at hcr
  | created E tref1 image1 status body F hE hs hF ht =>
    subst ht
    rw [creates_append, creates_avoids (hE.avoidsE hp).1, creates_call,
      creates_avoids hF.quiet.avoids_isCreate] at hcr
    simp at hcr
  | recovered E tref1 image1 e b0 R hE hc hR ht =>
    subst ht
    rw [creates_append, creates_avoids (hE.avoidsE hp).1, creates_call] at hcr
    simp only [List.nil_append, List.cons.injEq] at hcr
    obtain ⟨rfl, hcR⟩ := hcr
    obtain ⟨r1, r2⟩ := hR.retry_image (unableEvent_quiet L cfg.config.Image) c2
      (by rw [hcR]; simp)
    cases hE with
    | skip hn hE0 ht0 hi =>
      subst ht0 hi hE0
      refine ⟨fun hor => r1 (fun hand => ?_), fun h1 h2 h3 => ⟨rfl, ?_⟩⟩
      · rcases hor with hu | hd | hpl
        · rw [hu] at hand
          cases hand.1
        · rw [hd] at hand
          cases hand.2.1
        · rcases hn with hn | hn
          · rw [hpl] at hn
            cases hn
          · rw [hn.2] at hand
            cases hand.2.1
      · obtain ⟨t, wr, ht1, ht2⟩ := r2 h1 h2 rfl
        exact ⟨t, wr, by simp [ht1], ht2⟩
    | resolved wr t h1 h2 h3 hE0 ht0 hi =>
      subst ht0
      refine ⟨fun _ => r1 (fun hand => by cases hand.2.2), fun _ _ h => ?_⟩
      rw [h1] at h
      cases h
    | pulled tl h1 h2 hq hE0 ht0 hi =>
      subst ht0
      refine ⟨fun _ => r1 (fun hand => ?_), fun h _ _ => ?_⟩
      · rw [h2] at hand
        cases hand.1
      · rw [h2] at h
        cases h

theorem BodyShape.two_creates {L : Lib} {cfg : createConfig} {cid : Option cidFile}
    {fs : FS} {o : Outcome} {tr : List (Event L)} {fs1 : FS}
    (h : BodyShape cfg cid fs o tr fs1) :
    (creates tr).length ≤ 2 ∧
      ∀ c1 c2, creates tr = [c1, c2] →
        c1.notFound = true ∧
        (∃ image, Event.pull image Chan.err none ∈ betweenCreates tr) ∧
        (∃ image1 image2,
          c1.image = some image1 ∧ c2.image = some image2 ∧
          c1.request = some ("POST", createPath L cfg.name, mergedConfig L cfg image1) ∧
          c2.request = some ("POST", createPath L cfg.name, mergedConfig L cfg image2)) ∧
        ((L.isTrusted = false ∨ L.HasDigest (parsedRef L cfg.config.Image) = true ∨
            cfg.pull = true) → c2.request = c1.request) ∧
        (L.isTrusted = true → L.HasDigest (parsedRef L cfg.config.Image) = false →
          cfg.pull = false →
            c1.request = some ("POST", createPath L cfg.name,
              mergedConfig L cfg cfg.config.Image) ∧
            ∃ t wr, Event.trustedReference (parsedRepo L cfg.config.Image)
                (parsedRef L cfg.config.Image) (.ok (some t)) wr ∈ tr ∧
              c2.request = some ("POST", createPath L cfg.name,
                mergedConfig L cfg (L.ImageName t (parsedRepo L cfg.config.Image)))) ∧
        ∀ e, c2.failure = some e → o = .error e ∧ afterSecondCreate tr = [] := by
  refine ⟨h.creates_spec.1, fun c1 c2 hcr => ?_⟩
  obtain ⟨hnf, hpull, ⟨image1, image2, hi1, hi2, hr1, hr2⟩, hfail⟩ :=
    h.creates_spec.2 c1 c2 hcr
  obtain ⟨hsame, hdiff⟩ := h.retry_imageB c1 c2 hcr
  refine ⟨hnf, hpull, ⟨image1, image2, hi1, hi2, hr1, hr2⟩, ?_, ?_, hfail⟩
  · intro hor
    have h12 := hsame hor
    rw [hi1, hi2] at h12
    cases h12
    rw [hr1, hr2]
  · intro h1 h2 h3
    obtain ⟨hc1, t, wr, hmem, hc2⟩ := hdiff h1 h2 h3
    rw [hi1] at hc1
    rw [hi2] at hc2
    cases hc1
    cases hc2
    exact ⟨hr1, t, wr, hmem, hr2⟩

/-- C1, as the code has it: `createContainer` sends the create request at most twice in a
run.  When it sends it twice, the first request failed with the not-found pattern (status
404 and an error text containing `config.Image`) and a pull that succeeded lies between
the two.  Both requests have the method `POST`, the path with the `name` query and, as
body, the merged configuration with `config.Image` as it is when the request is sent.
The second request is the first one over again when trust mode is disabled, or the
reference has a digest, or `createConfig.pull` is set.  With trust mode active, no digest
and `pull` not set, the first body names the image as the caller did, and the second names
it by the trusted reference that the recovery path resolved (line 152).  If the second
request fails, `createContainer` returns the error of the second and does nothing more. -/
theorem createContainer_create_at_most_twice {L : Lib} {σ : Type} (cli : DockerCli L σ)
    (cfg : createConfig) (w : σ) (fs : FS) :
    (creates (createContainer cli cfg w fs).trace).length ≤ 2 ∧
      ∀ c1 c2, creates (createContainer cli cfg w fs).trace = [c1, c2] →
        c1.notFound = true ∧
        (∃ image, Event.pull image Chan.err none ∈
          betweenCreates (createContainer cli cfg w fs).trace) ∧
        (∃ image1 image2,
          c1.image = some image1 ∧ c2.image = some image2 ∧
          c1.request = some ("POST", createPath L cfg.name, mergedConfig L cfg image1) ∧
          c2.request = some ("POST", createPath L cfg.name, mergedConfig L cfg image2)) ∧
        ((L.isTrusted = false ∨ L.HasDigest (parsedRef L cfg.config.Image) = true ∨
            cfg.pull = true) → c2.request = c1.request) ∧
        (L.isTrusted = true → L.HasDigest (parsedRef L cfg.config.Image) = false →
          cfg.pull = false →
            c1.request = some ("POST", createPath L cfg.name,
              mergedConfig L cfg cfg.config.Image) ∧
            ∃ t wr, Event.trustedReference (parsedRepo L cfg.config.Image)
                (parsedRef L cfg.config.Image) (.ok (some t)) wr ∈
                  (createContainer cli cfg w fs).trace ∧
              c2.request = some ("POST", createPath L cfg.name,
                mergedConfig L cfg (L.ImageName t (parsedRepo L cfg.config.Image)))) ∧
        ∀ e, c2.failure = some e →
          (createContainer cli cfg w fs).result = .error e ∧
          afterSecondCreate (createContainer cli cfg w fs).trace = [] := by
  cases createContainer_shape cli cfg w fs with
  | noFile hc hB => exact hB.two_creates
  | guardError e hc hg ho ht hf => rw [ht]; simp [creates]
  | withFile c fs0 hc hg hB => exact hB.two_creates

/-- Example `docker create alpine:latest` on an engine that misses the image twice: the error
returned is the one of the second create request. -/
theorem createContainer_create_at_most_twice_witness :
    (createContainer (demoCli false) (demoConfig false "") demoMissingTwice demoFS).result
      = .error "No such image: alpine:latest (still)" :=
  ((createContainer_create_at_most_twice (demoCli false) (demoConfig false "")
      demoMissingTwice demoFS).2
    (Event.call "POST" "/containers/create?" (⟨"alpine:latest", ""⟩, ⟨"", ""⟩) "alpine:latest"
      404 (some "No such image: alpine:latest") none)
    (Event.call "POST" "/containers/create?" (⟨"alpine:latest", ""⟩, ⟨"", ""⟩) "alpine:latest"
      404 (some "No such image: alpine:latest (still)") none)
    (by rfl)).2.2.2.2.2 "No such image: alpine:latest (still)" rfl |>.1

/-- C1 as stated fails with trust mode active and `pull` not set: the first request of
`docker create alpine:latest` carries `alpine:latest`, the recovery path resolves the
trusted reference `sha256:abc` and sets `config.Image` (line 152), and the retried request
carries `alpine@sha256:abc`. -/
theorem createContainer_create_at_most_twice_counterexample :
    ∃ c1 c2,
      creates (createContainer (demoCli true) (demoConfig false "") demoMissingOnce
        demoFS).trace = [c1, c2] ∧
      c1.request = some ("POST", "/containers/create?",
        ((⟨"alpine:latest", ""⟩, ⟨"", ""⟩) : Config × HostConfig)) ∧
      c2.request = some ("POST", "/containers/create?",
        ((⟨"alpine@sha256:abc", ""⟩, ⟨"", ""⟩) : Config × HostConfig)) ∧
      c2.request ≠ c1.request :=
  ⟨Event.call "POST" "/containers/create?" (⟨"alpine:latest", ""⟩, ⟨"", ""⟩) "alpine:latest"
      404 (some "No such image: alpine:latest") none,
    Event.call "POST" "/containers/create?" (⟨"alpine@sha256:abc", ""⟩, ⟨"", ""⟩)
      "alpine@sha256:abc" 201 none (some ⟨"c0ffee", ["low disk space"]⟩),
    rfl, rfl, rfl, fun h => by
      have h2 := congrArg (fun r => r.map (fun x => (x.2.2 : Config × HostConfig).1.Image)) h
      revert h2
      decide⟩

/-! ### The first create request and the recovery path -/

theorem warning_ne_unable (w n : String) :
    ("WARNING: " ++ w ++ "\n") ≠ ("Unable to find image '" ++ n ++ "' locally\n") := by
  intro h
  have h2 := congrArg String.data h
  simp only [String.data_append] at h2
  have h3 := congrArg List.head? h2
  simp at h3

theorem FinishShape.head_ne_unable {L : Lib} {body : L.Body} {cid : Option cidFile} {fs : FS}
    {o : Outcome} {tr : List (Event L)} {fs1 : FS} (image : String)
    (h : FinishShape body cid fs o tr fs1) : tr.head? ≠ some (unableEvent L image) := by
  have hw : ∀ ws : List String, (warningEvents L ws).head? ≠ some (unableEvent L image) := by
    intro ws
    cases ws with
    | nil => simp [warningEvents]
    | cons a l =>
      simp only [warningEvents, List.map_cons, List.head?_cons, unableEvent, ne_eq,
        Option.some.injEq, Event.write.injEq, true_and]
      exact warning_ne_unable _ _
  cases h with
  | decodeError e hd ho ht hf => subst ht; simp
  | writeError resp c e hd hc hw1 ho ht hf => subst ht; exact hw _
  | okNoFile resp hd hc ho ht hf => subst ht; exact hw _
  | okFile resp c c1 hd hc hw1 ho ht => subst ht; exact hw _

theorem RecoverShape.head {L : Lib} {path : String} {d : String → L.Merged} {repo : String}
    {ref : L.Ref} {diag : Event L} {image0 : String} {tref0 : Option L.Ref}
    {cid : Option cidFile} {fs : FS} {o : Outcome} {tr : List (Event L)} {fs1 : FS}
    (h : RecoverShape path d repo ref diag image0 tref0 cid fs o tr fs1) :
    tr.head? = some diag := by
  cases h <;> simp_all

theorem BodyShape.first_create {L : Lib} {cfg : createConfig} {cid : Option cidFile}
    {fs : FS} {o : Outcome} {tr : List (Event L)} {fs1 : FS}
    (h : BodyShape cfg cid fs o tr fs1) :
    ∀ c, (creates tr).head? = some c →
      ((afterFirstCreate tr).head? = some (unableEvent L cfg.config.Image) ↔
        c.notFound = true) ∧
      (∀ e, c.failure = some e → c.notFound = false →
        o = .error e ∧ afterFirstCreate tr = []) := by
  have hp := pullingEvent_quiet L cfg.config.Image
  have hk := Event.quiet_kinds hp
  cases h with
  | trustError wr e h1 h2 h3 ho ht hf => subst ht; simp [creates]
  | trustNil wr h1 h2 h3 ho ht hf => subst ht; simp [creates]
  | pullError e tl h1 h2 hq ho ht hf =>
    subst ht
    have : creates (pullingEvent L cfg.config.Image ::
        Event.pull cfg.config.Image Chan.err (some e) :: tl) = [] :=
      creates_avoids (by simp [hk, hq.avoids_isCreate])
    simp [this]
  | nilError E tref1 image1 b0 hE ho ht hf =>
    subst ht
    rw [creates_append, creates_avoids (hE.avoidsE hp).1, creates_call,
      afterFirstCreate_call (hE.avoidsE hp).1]
    simp [Event.notFound, Event.failure]
  | createError E tref1 image1 status e b0 hE hn ho ht hf =>
    subst ht
    rw [creates_append, creates_avoids (hE.avoidsE hp).1, creates_call,
      afterFirstCreate_call (hE.avoidsE hp).1]
    simp only [List.nil_append, List.head?_cons, Option.some.injEq, List.head?_nil,
      forall_eq', Event.notFound, Event.failure]
    refine ⟨?_, ?_⟩
    · simpa using hn
    · intro _
      exact ⟨ho, trivial⟩
  | created E tref1 image1 status body F hE hs hF ht =>
    subst ht
    rw [creates_append, creates_avoids (hE.avoidsE hp).1, creates_call,
      afterFirstCreate_call (hE.avoidsE hp).1]
    simp [Event.notFound, Event.failure, hF.head_ne_unable cfg.config.Image]
  | recovered E tref1 image1 e b0 R hE hc hR ht =>
    subst ht
    rw [creates_append, creates_avoids (hE.avoidsE hp).1, creates_call,
      afterFirstCreate_call (hE.avoidsE hp).1]
    simp [Event.notFound, Event.failure, hR.head, hc]

/-- C2: for the first create request of `createContainer`, the recovery path is entered
(the diagnostic `Unable to find image ... locally` is the next thing that happens) if and
only if the request failed with status 404 and an error text containing `config.Image`;
after any other failure of that request `createContainer` returns exactly that error and
does nothing more: no pull, no trust resolution, no tag operation, no second create. -/
theorem createContainer_first_create {L : Lib} {σ : Type} (cli : DockerCli L σ)
    (cfg : createConfig) (w : σ) (fs : FS) :
    ∀ c, (creates (createContainer cli cfg w fs).trace).head? = some c →
      ((afterFirstCreate (createContainer cli cfg w fs).trace).head?
          = some (unableEvent L cfg.config.Image) ↔ c.notFound = true) ∧
      (∀ e, c.failure = some e → c.notFound = false →
        (createContainer cli cfg w fs).result = .error e ∧
        afterFirstCreate (createContainer cli cfg w fs).trace = []) := by
  cases createContainer_shape cli cfg w fs with
  | noFile hc hB => exact hB.first_create
  | guardError e hc hg ho ht hf => rw [ht]; simp [creates]
  | withFile c fs0 hc hg hB => exact hB.first_create

/-- Example `docker create --pull alpine:latest` on an engine that answers 409: the error is
returned as it is and nothing follows the create request. -/
theorem createContainer_first_create_witness :
    (createContainer (demoCli false) (demoConfig true "") demoConflict demoFS).result
        = .error "Conflict. The name is already in use" ∧
      afterFirstCreate
        (createContainer (demoCli false) (demoConfig true "") demoConflict demoFS).trace = [] :=
  ((createContainer_first_create (demoCli false) (demoConfig true "") demoConflict demoFS)
    (Event.call "POST" "/containers/create?" (⟨"alpine:latest", ""⟩, ⟨"", ""⟩) "alpine:latest"
      409 (some "Conflict. The name is already in use") none)
    (by rfl)).2 "Conflict. The name is already in use" rfl (by rfl)

/-! ### The pull before the first create request -/

theorem EagerShape.pulls {L : Lib} {cfg : createConfig} {E : List (Event L)}
    {tref1 : Option L.Ref} {image1 : String}
    (h : EagerShape cfg.pull (parsedRepo L cfg.config.Image) (parsedRef L cfg.config.Image)
      (pullingEvent L cfg.config.Image) cfg.config.Image E tref1 image1) :
    ((∃ e ∈ E, e.isPull = true) ↔ (cfg.pull = true ∧ L.isTrusted = false)) ∧
      (∀ image c e, Event.pull image c (some e) ∉ E) ∧
      E.countP Event.isPull = (if cfg.pull = true ∧ L.isTrusted = false then 1 else 0) := by
  cases h with
  | skip hn hE ht hi =>
    subst hE
    rcases hn with hn | hn <;> simp [hn]
  | resolved wr t h1 h2 h3 hE ht hi => subst hE; simp [h2, List.countP_cons]
  | pulled tl h1 h2 hq hE ht hi =>
    subst hE
    refine ⟨by simp [h1, h2], ?_, ?_⟩
    · intro image c e hm
      simp only [pullingEvent, List.mem_cons, Event.pull.injEq, and_false, false_or,
        reduceCtorEq] at hm
      exact hq.avoids_isPull.not_mem (Event.isPull_pull image c (some e)) hm
    · simp [h1, h2, pullingEvent, List.countP_cons, hq.avoids_isPull.countP]

theorem BodyShape.eager {L : Lib} {cfg : createConfig} {cid : Option cidFile}
    {fs : FS} {o : Outcome} {tr : List (Event L)} {fs1 : FS}
    (h : BodyShape cfg cid fs o tr fs1) :
    ((∃ e ∈ beforeFirstCreate tr, e.isPull = true) ↔ (cfg.pull = true ∧ L.isTrusted = false)) ∧
      (∀ image c e, Event.pull image c (some e) ∈ beforeFirstCreate tr →
        o = .error e ∧ creates tr = []) := by
  have hp := pullingEvent_quiet L cfg.config.Image
  cases h with
  | trustError wr e h1 h2 h3 ho ht hf =>
    subst ht
    rw [beforeFirstCreate_avoids (by simp)]
    simp [h2]
  | trustNil wr h1 h2 h3 ho ht hf =>
    subst ht
    rw [beforeFirstCreate_avoids (by simp)]
    simp [h2]
  | pullError e tl h1 h2 hq ho ht hf =>
    subst ht
    have ha : Avoids Event.isCreate (pullingEvent L cfg.config.Image ::
        Event.pull cfg.config.Image Chan.err (some e) :: tl) := by
      simp [(Event.quiet_kinds hp).1, hq.avoids_isCreate]
    rw [beforeFirstCreate_avoids ha, creates_avoids ha]
    refine ⟨by simp [h1, h2], ?_⟩
    intro image c e1 hm
    simp only [pullingEvent, List.mem_cons, Event.pull.injEq, false_or, reduceCtorEq] at hm
    rcases hm with ⟨-, -, he⟩ | hm
    · cases he
      exact ⟨ho, rfl⟩
    · exact absurd hm (hq.avoids_isPull.not_mem (Event.isPull_pull image c (some e1)))
  | nilError E tref1 image1 b0 hE ho ht hf =>
    subst ht
    rw [beforeFirstCreate_call (hE.avoidsE hp).1]
    exact ⟨hE.pulls.1, fun image c e hm => absurd hm (hE.pulls.2.1 image c e)⟩
  | createError E tref1 image1 status e b0 hE hn ho ht hf =>
    subst ht
    rw [beforeFirstCreate_call (hE.avoidsE hp).1]
    exact ⟨hE.pulls.1, fun image c e hm => absurd hm (hE.pulls.2.1 image c e)⟩
  | created E tref1 image1 status body F hE hs hF ht =>
    subst ht
    rw [beforeFirstCreate_call (hE.avoidsE hp).1]
    exact ⟨hE.pulls.1, fun image c e hm => absurd hm (hE.pulls.2.1 image c e)⟩
  | recovered E tref1 image1 e b0 R hE hc hR ht =>
    subst ht
    rw [beforeFirstCreate_call (hE.avoidsE hp).1]
    exact ⟨hE.pulls.1, fun image c e hm => absurd hm (hE.pulls.2.1 image c e)⟩

/-- C3, as the code has it: once the container ID file guard has passed (no `cidfile`
was asked for, or `newCIDFile` succeeded), a pull is performed before the first create
request if and only if `createConfig.pull` is set and trust mode is disabled.  In every
run, with `pull` set and trust mode enabled no pull precedes the first create request,
and when a pull before the first create request fails `createContainer` returns the
error of the pull and sends no create request. -/
theorem createContainer_eager_pull {L : Lib} {σ : Type} (cli : DockerCli L σ)
    (cfg : createConfig) (w : σ) (fs : FS) :
    (cidGuardPasses fs cfg.cidfile = true →
        ((∃ e ∈ beforeFirstCreate (createContainer cli cfg w fs).trace, e.isPull = true) ↔
          (cfg.pull = true ∧ L.isTrusted = false))) ∧
      (cfg.pull = true → L.isTrusted = true →
        ∀ e ∈ beforeFirstCreate (createContainer cli cfg w fs).trace, e.isPull = false) ∧
      (∀ image c e,
        Event.pull image c (some e) ∈ beforeFirstCreate (createContainer cli cfg w fs).trace →
          (createContainer cli cfg w fs).result = .error e ∧
          creates (createContainer cli cfg w fs).trace = []) := by
  cases createContainer_shape cli cfg w fs with
  | noFile hc hB =>
    refine ⟨fun _ => hB.eager.1, ?_, hB.eager.2⟩
    intro h1 h2 e he
    by_contra hn
    have := hB.eager.1.1 ⟨e, he, by simpa using hn⟩
    simp [h2] at this
  | guardError e hc hg ho ht hf =>
    rw [ht]
    refine ⟨?_, by simp [beforeFirstCreate], by simp [beforeFirstCreate]⟩
    intro h
    simp [cidGuardPasses, hc, hg] at h
  | withFile c fs0 hc hg hB =>
    refine ⟨fun _ => hB.eager.1, ?_, hB.eager.2⟩
    intro h1 h2 e he
    by_contra hn
    have := hB.eager.1.1 ⟨e, he, by simpa using hn⟩
    simp [h2] at this

/-- Example `docker create --pull alpine:latest` with an unreachable registry: the error of the
pull is returned and no create request is sent. -/
theorem createContainer_eager_pull_witness :
    (createContainer demoCliPullFails (demoConfig true "") demoMissingOnce demoFS).result
        = .error "registry unreachable" ∧
      creates (createContainer demoCliPullFails (demoConfig true "") demoMissingOnce
        demoFS).trace = [] :=
  (createContainer_eager_pull demoCliPullFails (demoConfig true "") demoMissingOnce
    demoFS).2.2 "alpine:latest" Chan.err "registry unreachable" (by
      rw [show beforeFirstCreate
          (createContainer demoCliPullFails (demoConfig true "") demoMissingOnce demoFS).trace
        = [Event.write Chan.err "Pulling image 'alpine:latest'\n",
           Event.pull "alpine:latest" Chan.err (some "registry unreachable"),
           Event.stream "POST" "/images/create?fromImage=alpine&tag=latest"
             [("X-Registry-Auth", ["{}"])] Chan.err,
           Event.write Chan.err ""] from rfl]
      simp)

/-- C3 as stated fails when the container ID file is already there: `pull` is set and
trust mode is disabled, and yet no pull is performed. -/
theorem createContainer_eager_pull_counterexample :
    ¬ ((∃ e ∈ beforeFirstCreate
          (createContainer (demoCli false) (demoConfig true "/tmp/cid") demoMissingOnce
            demoFS).trace, e.isPull = true) ↔
        ((demoConfig true "/tmp/cid").pull = true ∧ (demoLib false).isTrusted = false)) := by
  rw [show (createContainer (demoCli false) (demoConfig true "/tmp/cid") demoMissingOnce
    demoFS).trace = [] from rfl]
  simp [beforeFirstCreate, demoConfig, demoLib]

/-! ### How often the pull step and the create step run -/

theorem RecoverShape.countsR {L : Lib} {path : String} {d : String → L.Merged} {repo : String}
    {ref : L.Ref} {diag : Event L} {image0 : String}
    {cid : Option cidFile} {fs : FS} {o : Outcome} {tr : List (Event L)} {fs1 : FS}
    (hd : diag.quiet = true) (hu : L.isTrusted = false)
    (hc : ∀ c ∈ tr, c.isCreate = true → c.notFound = true)
    (hpull : ∀ e ∈ tr, e.isFailedPull = false)
    (h : RecoverShape path d repo ref diag image0 none cid fs o tr fs1) :
    tr.countP Event.isPull = 1 ∧ tr.countP Event.isCreate = 1 ∧ ∃ e, o = .error e := by
  have hk := Event.quiet_kinds hd
  have hT : ∀ {T tref1 image1}, TrustShape repo ref image0 none T tref1 image1 →
      T = [] ∧ tref1 = none := by
    intro T tref1 image1 hT
    cases hT with
    | skip hn hT ht hi => exact ⟨hT, ht⟩
    | resolved wr t h1 h2 h3 hT ht hi => rw [hu] at h1; cases h1
  cases h with
  | trustError wr e h1 h2 h3 ho ht hf => rw [hu] at h1; cases h1
  | trustNil wr h1 h2 h3 ho ht hf => rw [hu] at h1; cases h1
  | pullError T tref1 image1 e tl hT1 hq ho ht hf =>
    subst ht
    have := hpull (Event.pull image1 Chan.err (some e)) (by simp)
    cases this
  | repoInfoError T tref1 image1 tl t e hT1 hq h1 h2 h3 ho ht hf =>
    rw [(hT hT1).2] at h1
    cases h1
  | tagError wr T tref1 image1 tl t ri e hT1 hq h1 h2 h3 ho ht hf =>
    rw [(hT hT1).2] at h1
    cases h1
  | retried T tref1 image1 tl G R hT1 hq hG hR ht =>
    subst ht
    obtain ⟨rfl, rfl⟩ := hT hT1
    have hG0 : G = [] := by
      cases hG with
      | skip _ hG => exact hG
      | tagged wr t ri h1 h2 h3 hG => cases h1
    subst hG0
    cases hR with
    | callError status e b0 ho ht hf =>
      subst ht
      refine ⟨?_, ?_, e, ho⟩
      · simp [List.countP_cons, List.countP_append, hk, hq.avoids_isPull.countP]
      · simp [List.countP_cons, List.countP_append, hk, hq.avoids_isCreate.countP]
    | called status body F hF ht =>
      subst ht
      have := hc (Event.call "POST" path (d image1) image1 status none body) (by simp) rfl
      simp [Event.notFound] at this

theorem BodyShape.countsB {L : Lib} {cfg : createConfig} {cid : Option cidFile}
    {fs : FS} {o : Outcome} {tr : List (Event L)} {fs1 : FS}
    (hu : L.isTrusted = false)
    (hc : ∀ c ∈ tr, c.isCreate = true → c.notFound = true)
    (hpull : ∀ e ∈ tr, e.isFailedPull = false)
    (h : BodyShape cfg cid fs o tr fs1) :
    tr.countP Event.isPull = (if cfg.pull = true then 2 else 1) ∧
      tr.countP Event.isCreate = 2 ∧ ∃ e, o = .error e := by
  have hp := pullingEvent_quiet L cfg.config.Image
  have hE0 : ∀ {E tref1 image1}, EagerShape cfg.pull (parsedRepo L cfg.config.Image)
      (parsedRef L cfg.config.Image) (pullingEvent L cfg.config.Image) cfg.config.Image
      E tref1 image1 → tref1 = none := by
    intro E tref1 image1 hE
    cases hE with
    | skip hn hE ht hi => exact ht
    | resolved wr t h1 h2 h3 hE ht hi => rw [hu] at h2; cases h2
    | pulled tl h1 h2 hq hE ht hi => exact ht
  cases h with
  | trustError wr e h1 h2 h3 ho ht hf => rw [hu] at h2; cases h2
  | trustNil wr h1 h2 h3 ho ht hf => rw [hu] at h2; cases h2
  | pullError e tl h1 h2 hq ho ht hf =>
    subst ht
    have := hpull (Event.pull cfg.config.Image Chan.err (some e)) (by simp)
    cases this
  | nilError E tref1 image1 b0 hE ho ht hf =>
    subst ht
    have := hc _ (List.mem_append_right E (List.mem_singleton_self _)) rfl
    simp [Event.notFound] at this
  | createError E tref1 image1 status e b0 hE hn ho ht hf =>
    subst ht
    have := hc _ (List.mem_append_right E (List.mem_singleton_self _)) rfl
    simp only [Event.notFound, Bool.and_eq_true, decide_eq_true_eq] at this
    exact absurd this hn
  | created E tref1 image1 status body F hE hs hF ht =>
    subst ht
    have := hc _ (List.mem_append_right E (List.mem_cons_self _ _)) rfl
    simp [Event.notFound] at this
  | recovered E tref1 image1 e b0 R hE hc1 hR ht =>
    subst ht
    have ht1 := hE0 hE
    subst ht1
    obtain ⟨r1, r2, r3⟩ := hR.countsR (unableEvent_quiet L cfg.config.Image) hu
      (fun c hm => hc c (List.mem_append_right E (List.mem_cons_of_mem _ hm)))
      (fun e hm => hpull e (List.mem_append_right E (List.mem_cons_of_mem _ hm)))
    refine ⟨?_, ?_, r3⟩
    · simp only [List.countP_append, List.countP_cons, Event.isPull_call, r1, hE.pulls.2.2, hu]
      cases cfg.pull <;> simp
    · simp [List.countP_append, List.countP_cons, r2, (hE.avoidsE hp).1.countP]

/-- C5, as the code has it: in a run with trust mode disabled in which the container ID
file guard has passed, every create request fails with the not-found pattern and every
pull succeeds, the create step is invoked exactly twice, the pull step exactly twice when
`createConfig.pull` is set and exactly once when it is not, and the run ends in failure. -/
theorem createContainer_always_missing {L : Lib} {σ : Type} (cli : DockerCli L σ)
    (cfg : createConfig) (w : σ) (fs : FS)
    (hg : cidGuardPasses fs cfg.cidfile = true) (hu : L.isTrusted = false)
    (hc : ∀ c ∈ creates (createContainer cli cfg w fs).trace, c.notFound = true)
    (hpull : ∀ e ∈ (createContainer cli cfg w fs).trace, e.isFailedPull = false) :
    (createContainer cli cfg w fs).trace.countP Event.isPull
        = (if cfg.pull = true then 2 else 1) ∧
      (createContainer cli cfg w fs).trace.countP Event.isCreate = 2 ∧
      ∃ e, (createContainer cli cfg w fs).result = .error e := by
  have hc2 : ∀ c ∈ (createContainer cli cfg w fs).trace, c.isCreate = true →
      c.notFound = true := by
    intro c hm hi
    exact hc c (by simp [creates, hm, hi])
  cases createContainer_shape cli cfg w fs with
  | noFile hc1 hB => exact hB.countsB hu hc2 hpull
  | guardError e hc1 hg1 ho ht hf => simp [cidGuardPasses, hc1, hg1] at hg
  | withFile c fs0 hc1 hg1 hB => exact hB.countsB hu hc2 hpull

/-- Example `docker create --pull alpine:latest` on an engine that misses the image twice: two
pulls, two create requests, an error. -/
theorem createContainer_always_missing_witness :
    (createContainer (demoCli false) (demoConfig true "") demoMissingTwice demoFS).trace.countP
        Event.isPull = 2 ∧
      (createContainer (demoCli false) (demoConfig true "") demoMissingTwice demoFS).trace.countP
        Event.isCreate = 2 ∧
      ∃ e, (createContainer (demoCli false) (demoConfig true "") demoMissingTwice
        demoFS).result = .error e :=
  createContainer_always_missing (demoCli false) (demoConfig true "") demoMissingTwice demoFS
    (by decide) rfl (by decide) (by decide)

/-- C5 as stated fails without `--pull`: every create request fails with the not-found
pattern and every pull succeeds, and the pull step runs once, not twice. -/
theorem createContainer_always_missing_counterexample :
    (∀ c ∈ creates
        (createContainer (demoCli false) (demoConfig false "") demoMissingTwice demoFS).trace,
        c.notFound = true) ∧
      (∀ e ∈ (createContainer (demoCli false) (demoConfig false "") demoMissingTwice
        demoFS).trace, e.isFailedPull = false) ∧
      (createContainer (demoCli false) (demoConfig false "") demoMissingTwice
        demoFS).trace.countP Event.isPull = 1 ∧
      (createContainer (demoCli false) (demoConfig false "") demoMissingTwice
        demoFS).trace.countP Event.isCreate = 2 := by
  decide

/-! ### The container ID file guard -/

/-- C6: when a file already exists at `path`, `newCIDFile(path)` returns an error and no
handle and leaves the file system as it was (the file is neither created anew nor
truncated nor overwritten); and `createContainer`, given that path as `cidfile`, returns
that error before it does anything else: no trust resolution, no pull, no create request,
the world and the file system untouched. -/
theorem newCIDFile_existing_file (fs : FS) (path : String)
    (h : (fs.files path).isSome = true) :
    newCIDFile fs path =
        (.error ("Container ID file found, make sure the other container isn't running or delete "
          ++ path), fs) ∧
      ∀ (L : Lib) (σ : Type) (cli : DockerCli L σ) (cfg : createConfig) (w : σ),
        cfg.cidfile = path →
          (createContainer cli cfg w fs).result =
              .error ("Container ID file found, make sure the other container isn't running or delete "
                ++ path) ∧
            (createContainer cli cfg w fs).trace = [] ∧
            (createContainer cli cfg w fs).st.fs = fs ∧
            (createContainer cli cfg w fs).st.world = w := by
  have h1 : newCIDFile fs path =
      (.error ("Container ID file found, make sure the other container isn't running or delete "
        ++ path), fs) := by
    simp [newCIDFile, os.Stat, h]
  refine ⟨h1, ?_⟩
  intro L σ cli cfg w hc
  subst hc
  have hne : cfg.cidfile ≠ "" := by
    intro h0
    rw [h0, fs.noEmptyPath] at h
    cases h
  simp [createContainer, hne, h1]

/-- The file `/tmp/cid` exists: `newCIDFile` refuses it, and `docker create --cidfile
/tmp/cid` does nothing. -/
theorem newCIDFile_existing_file_witness :
    newCIDFile demoFS "/tmp/cid" =
        (.error ("Container ID file found, make sure the other container isn't running or delete "
          ++ "/tmp/cid"), demoFS) ∧
      (createContainer (demoCli true) (demoConfig true "/tmp/cid") demoMissingOnce demoFS).trace
        = [] :=
  ⟨(newCIDFile_existing_file demoFS "/tmp/cid" (by decide)).1,
    ((newCIDFile_existing_file demoFS "/tmp/cid" (by decide)).2 (demoLib true) (List DemoResp)
      (demoCli true) (demoConfig true "/tmp/cid") demoMissingOnce rfl).2.1⟩

/-! ### A run that ends well -/

theorem FinishShape.ok_runF {L : Lib} {body : L.Body} {cid : Option cidFile} {fs : FS}
    {o : Outcome} {tr : List (Event L)} {fs1 : FS} (h : FinishShape body cid fs o tr fs1)
    (resp : ContainerCreateResponse) (ho : o = .ok resp) :
    tr = warningEvents L resp.Warnings ∧ L.Decode body = .ok resp ∧
      (cid = none → fs1 = fs) ∧ (∀ c, cid = some c → ∃ c1, c.Write fs resp.ID = .ok (c1, fs1)) := by
  cases h with
  | decodeError e hd ho1 ht hf => rw [ho1] at ho; cases ho
  | writeError resp1 c e hd hc hw ho1 ht hf => rw [ho1] at ho; cases ho
  | okNoFile resp1 hd hc ho1 ht hf =>
    rw [ho1] at ho
    cases ho
    refine ⟨ht, hd, fun _ => hf, ?_⟩
    intro c h
    rw [hc] at h
    cases h
  | okFile resp1 c c1 hd hc hw ho1 ht =>
    rw [ho1] at ho
    cases ho
    refine ⟨ht, hd, ?_, ?_⟩
    · intro h
      rw [hc] at h
      cases h
    · intro c2 h
      rw [hc] at h
      cases h
      exact ⟨c1, hw⟩

theorem RecoverShape.ok_runR {L : Lib} {path : String} {d : String → L.Merged} {repo : String}
    {ref : L.Ref} {diag : Event L} {image0 : String} {tref0 : Option L.Ref}
    {cid : Option cidFile} {fs : FS} {o : Outcome} {tr : List (Event L)} {fs1 : FS}
    (hd : diag.quiet = true)
    (h : RecoverShape path d repo ref diag image0 tref0 cid fs o tr fs1)
    (resp : ContainerCreateResponse) (ho : o = .ok resp) :
    EndsWell path d cid fs fs1 tr resp := by
  have hk := Event.quiet_kinds hd
  cases h with
  | trustError wr e h1 h2 h3 ho1 ht hf => rw [ho1] at ho; cases ho
  | trustNil wr h1 h2 h3 ho1 ht hf => rw [ho1] at ho; cases ho
  | pullError T tref1 image1 e tl hT hq ho1 ht hf => rw [ho1] at ho; cases ho
  | repoInfoError T tref1 image1 tl t e hT hq h1 h2 h3 ho1 ht hf => rw [ho1] at ho; cases ho
  | tagError wr T tref1 image1 tl t ri e hT hq h1 h2 h3 ho1 ht hf => rw [ho1] at ho; cases ho
  | retried T tref1 image1 tl G R hT hq hG hR ht =>
    subst ht
    cases hR with
    | callError status e b0 ho1 ht hf => rw [ho1] at ho; cases ho
    | called status body F hF ht =>
      subst ht
      obtain ⟨f1, f2, f3, f4⟩ := hF.ok_runF resp ho
      subst f1
      refine ⟨diag :: (T ++ Event.pull image1 Chan.err none :: (tl ++ G)), image1, status, body,
        by simp, ?_, f2, f3, f4⟩
      simp [hk, hT.avoidsT.2.2.2, hq.avoids_out, hG.avoidsG.2.2.2]

theorem BodyShape.ok_runB {L : Lib} {cfg : createConfig} {cid : Option cidFile}
    {fs : FS} {o : Outcome} {tr : List (Event L)} {fs1 : FS}
    (h : BodyShape cfg cid fs o tr fs1) (resp : ContainerCreateResponse) (ho : o = .ok resp) :
    EndsWell (createPath L cfg.name) (mergedConfig L cfg) cid fs fs1
      tr resp := by
  have hp := pullingEvent_quiet L cfg.config.Image
  cases h with
  | trustError wr e h1 h2 h3 ho1 ht hf => rw [ho1] at ho; cases ho
  | trustNil wr h1 h2 h3 ho1 ht hf => rw [ho1] at ho; cases ho
  | pullError e tl h1 h2 hq ho1 ht hf => rw [ho1] at ho; cases ho
  | nilError E tref1 image1 b0 hE ho1 ht hf => rw [ho1] at ho; cases ho
  | createError E tref1 image1 status e b0 hE hn ho1 ht hf => rw [ho1] at ho; cases ho
  | created E tref1 image1 status body F hE hs hF ht =>
    subst ht
    obtain ⟨f1, f2, f3, f4⟩ := hF.ok_runF resp ho
    subst f1
    exact ⟨E, image1, status, body, rfl, (hE.avoidsE hp).2.2, f2, f3, f4⟩
  | recovered E tref1 image1 e b0 R hE hc hR ht =>
    subst ht
    obtain ⟨pre, image, status, body, r1, r2, r3, r4, r5⟩ :=
      hR.ok_runR (unableEvent_quiet L cfg.config.Image) resp ho
    subst r1
    refine ⟨E ++ Event.call "POST" (createPath L cfg.name)
      (mergedConfig L cfg image1) image1 404 (some e) b0 :: pre, image, status, body,
      by simp, ?_, r3, r4, r5⟩
    simp [(hE.avoidsE hp).2.2, r2]

/-! ### What is written where -/

theorem RecoverShape.no_outR {L : Lib} {path : String} {d : String → L.Merged} {repo : String}
    {ref : L.Ref} {diag : Event L} {image0 : String} {tref0 : Option L.Ref}
    {cid : Option cidFile} {fs : FS} {o : Outcome} {tr : List (Event L)} {fs1 : FS}
    (hd : diag.quiet = true)
    (h : RecoverShape path d repo ref diag image0 tref0 cid fs o tr fs1) :
    Avoids (Event.isWriteTo Chan.out) tr := by
  have hk := Event.quiet_kinds hd
  cases h with
  | trustError wr e h1 h2 h3 ho1 ht hf => subst ht; simp [hk]
  | trustNil wr h1 h2 h3 ho1 ht hf => subst ht; simp [hk]
  | pullError T tref1 image1 e tl hT hq ho1 ht hf =>
    subst ht; simp [hk, hT.avoidsT.2.2.2, hq.avoids_out]
  | repoInfoError T tref1 image1 tl t e hT hq h1 h2 h3 ho1 ht hf =>
    subst ht; simp [hk, hT.avoidsT.2.2.2, hq.avoids_out]
  | tagError wr T tref1 image1 tl t ri e hT hq h1 h2 h3 ho1 ht hf =>
    subst ht; simp [hk, hT.avoidsT.2.2.2, hq.avoids_out]
  | retried T tref1 image1 tl G R hT hq hG hR ht =>
    subst ht
    simp [hk, hT.avoidsT.2.2.2, hq.avoids_out, hG.avoidsG.2.2.2, hR.avoidsR.2.2.2]

theorem BodyShape.no_outB {L : Lib} {cfg : createConfig} {cid : Option cidFile}
    {fs : FS} {o : Outcome} {tr : List (Event L)} {fs1 : FS}
    (h : BodyShape cfg cid fs o tr fs1) : Avoids (Event.isWriteTo Chan.out) tr := by
  have hp := pullingEvent_quiet L cfg.config.Image
  have hk := Event.quiet_kinds hp
  cases h with
  | trustError wr e h1 h2 h3 ho1 ht hf => subst ht; simp
  | trustNil wr h1 h2 h3 ho1 ht hf => subst ht; simp
  | pullError e tl h1 h2 hq ho1 ht hf => subst ht; simp [hk, hq.avoids_out]
  | nilError E tref1 image1 b0 hE ho1 ht hf => subst ht; simp [(hE.avoidsE hp).2.2]
  | createError E tref1 image1 status e b0 hE hn ho1 ht hf =>
    subst ht; simp [(hE.avoidsE hp).2.2]
  | created E tref1 image1 status body F hE hs hF ht =>
    subst ht; simp [(hE.avoidsE hp).2.2, hF.quiet.avoids_out]
  | recovered E tref1 image1 e b0 R hE hc hR ht =>
    subst ht
    simp [(hE.avoidsE hp).2.2, hR.no_outR (unableEvent_quiet L cfg.config.Image)]

theorem createContainer_no_out {L : Lib} {σ : Type} (cli : DockerCli L σ)
    (cfg : createConfig) (w : σ) (fs : FS) :
    Avoids (Event.isWriteTo Chan.out) (createContainer cli cfg w fs).trace := by
  cases createContainer_shape cli cfg w fs with
  | noFile hc hB => exact hB.no_outB
  | guardError e hc hg ho ht hf => rw [ht]; simp
  | withFile c fs0 hc hg hB => exact hB.no_outB

theorem createContainer_ok_run {L : Lib} {σ : Type} (cli : DockerCli L σ)
    (cfg : createConfig) (w : σ) (fs : FS) (resp : ContainerCreateResponse)
    (ho : (createContainer cli cfg w fs).result = .ok resp) :
    ∃ cid fs0, EndsWell (createPath L cfg.name) (mergedConfig L cfg)
        cid fs0 (createContainer cli cfg w fs).st.fs (createContainer cli cfg w fs).trace resp ∧
      ((cfg.cidfile = "" ∧ cid = none ∧ fs0 = fs) ∨
        (cfg.cidfile ≠ "" ∧ ∃ c, cid = some c ∧ newCIDFile fs cfg.cidfile = (.ok c, fs0))) := by
  cases createContainer_shape cli cfg w fs with
  | noFile hc hB => exact ⟨none, fs, hB.ok_runB resp ho, Or.inl ⟨hc, rfl, rfl⟩⟩
  | guardError e hc hg ho1 ht hf => rw [ho1] at ho; cases ho
  | withFile c fs0 hc hg hB => exact ⟨some c, fs0, hB.ok_runB resp ho, Or.inr ⟨hc, c, rfl, hg⟩⟩

theorem written_append {L : Lib} (c : Chan) (l m : List (Event L)) :
    written c (l ++ m) = written c l ++ written c m := by
  simp [written]

theorem written_cons {L : Lib} (c : Chan) (e : Event L) (l : List (Event L)) :
    written c (e :: l) = e.texts c ++ written c l := by
  simp [written]

theorem written_out_silent {L : Lib} {l : List (Event L)}
    (h : Avoids (Event.isWriteTo Chan.out) l) (hs : TrustSilent l) :
    written Chan.out l = [] := by
  induction l with
  | nil => rfl
  | cons a l ih =>
    have ha : a.texts Chan.out = [] := by
      have h1 := h a (List.mem_cons_self a l)
      have h2 := hs a (List.mem_cons_self a l)
      cases a with
      | write d text =>
        have hd : ¬ d = Chan.out := by simpa using h1
        simp [Event.texts, hd]
      | trustedReference repo ref res wr => exact h2 (Or.inl rfl)
      | pull image dst res => rfl
      | stream method path headers dst => rfl
      | call method path data image status err body => rfl
      | tagTrusted ri t ref res wr => exact h2 (Or.inr rfl)
    rw [written_cons, ha, ih (fun e he => h e (List.mem_cons_of_mem a he))
      (fun e he => hs e (List.mem_cons_of_mem a he))]
    rfl

theorem written_err_warnings (L : Lib) (ws : List String) :
    written Chan.err (warningEvents L ws) = ws.map (fun warning => "WARNING: " ++ warning ++ "\n") := by
  induction ws with
  | nil => rfl
  | cons a l ih =>
    have hw : warningEvents L (a :: l) =
        Event.write Chan.err ("WARNING: " ++ a ++ "\n") :: warningEvents L l := rfl
    rw [hw, written_cons, ih]
    simp [Event.texts]

/-- In a run of `CmdCreate` that reaches `createContainer` (the arguments parse and name an
image), nothing that `create.go` itself does inside `createContainer` (eager pull, recovery
pull, diagnostics, warnings) is written to `cli.out`.  When moreover the calls of
`cli.trustedReference` and `cli.tagTrusted` of the run write nothing to `cli.out` (there
are none with trust mode disabled): when `createContainer` returns the response
`{ID, Warnings}` that the body of the create request decoded to, `cli.out` receives
exactly one line, the ID, and `cli.err` ends with one `WARNING:` line for each warning,
with its exact text, in the order of the response; and when `CmdCreate` returns an error
`cli.out` receives nothing. -/
theorem CmdCreate_channels {L : Lib} {σ : Type} (cli : DockerCli L σ) (p : Parsed)
    (w : σ) (fs : FS) (hi : p.config.Image ≠ "")
    (hs : TrustSilent (createContainer cli p.createConfig w fs).trace) :
    (CmdCreate cli (.ok p) w fs).reached = true ∧
      (∀ e ∈ (createContainer cli p.createConfig w fs).trace,
        e.isWriteTo Chan.out = false) ∧
      written Chan.out (createContainer cli p.createConfig w fs).trace = [] ∧
      (∀ resp, (createContainer cli p.createConfig w fs).result = .ok resp →
        (CmdCreate cli (.ok p) w fs).result = .done ∧
        written Chan.out (CmdCreate cli (.ok p) w fs).trace = [resp.ID ++ "\n"] ∧
        (∃ pre, written Chan.err (CmdCreate cli (.ok p) w fs).trace =
          pre ++ resp.Warnings.map (fun warning => "WARNING: " ++ warning ++ "\n")) ∧
        ∃ c ∈ creates (createContainer cli p.createConfig w fs).trace,
          c.failure = none ∧ ∃ b, c.body = some b ∧ L.Decode b = .ok resp) ∧
      (∀ e, (CmdCreate cli (.ok p) w fs).result = .error e →
        written Chan.out (CmdCreate cli (.ok p) w fs).trace = []) ∧
      ((CmdCreate cli (.ok p) w fs).result = .done →
        ∃ resp, (createContainer cli p.createConfig w fs).result = .ok resp) := by
  have hno := createContainer_no_out cli p.createConfig w fs
  have hout := written_out_silent hno hs
  refine ⟨?_, hno, hout, ?_, ?_, ?_⟩
  · simp only [CmdCreate, hi, if_false]
    cases (createContainer cli p.createConfig w fs).result <;> rfl
  · intro resp ho
    obtain ⟨cid, fs0, ⟨pre, image, status, body, h1, h2, h3, -, -⟩, -⟩ :=
      createContainer_ok_run cli p.createConfig w fs resp ho
    have ht : (CmdCreate cli (.ok p) w fs).trace =
        (createContainer cli p.createConfig w fs).trace ++
          [Event.write Chan.out (resp.ID ++ "\n")] := by
      simp only [CmdCreate, hi, if_false, ho]
    refine ⟨by simp only [CmdCreate, hi, if_false, ho], ?_, ?_,
      Event.call "POST" (createPath L p.createConfig.name)
        (mergedConfig L p.createConfig image) image status none body,
      ?_, rfl, body, rfl, h3⟩
    · rw [ht, written_append, hout]
      simp [written, Event.texts]
    · refine ⟨written Chan.err pre, ?_⟩
      rw [ht, h1, written_append, written_append, written_cons, written_err_warnings]
      simp [written, Event.texts]
    · rw [h1]
      simp [creates]
  · intro e he
    have ht : (CmdCreate cli (.ok p) w fs).trace =
        (createContainer cli p.createConfig w fs).trace := by
      simp only [CmdCreate, hi, if_false] at he ⊢
      cases hr : (createContainer cli p.createConfig w fs).result with
      | ok resp => simp [hr] at he
      | error e1 => rfl
      | nilDeref => rfl
    rw [ht]
    exact hout
  · intro hd
    simp only [CmdCreate, hi, if_false] at hd
    cases hr : (createContainer cli p.createConfig w fs).result with
    | ok resp => exact ⟨resp, rfl⟩
    | error e1 => simp [hr] at hd
    | nilDeref => simp [hr] at hd

/-- Example `docker create alpine:latest` with trust mode disabled, on an engine that misses
the image once: `cli.out` gets the ID and nothing else, `cli.err` the diagnostic, the
progress of the pull and the warning. -/
theorem CmdCreate_channels_witness :
    written Chan.out (CmdCreate (demoCli false) (.ok demoParsed) demoMissingOnce demoFS).trace
        = ["c0ffee\n"] ∧
      written Chan.err (CmdCreate (demoCli false) (.ok demoParsed) demoMissingOnce demoFS).trace
        = ["Unable to find image 'alpine:latest' locally\n", "Pulling from library/alpine\n",
           "WARNING: low disk space\n"] :=
  ⟨((CmdCreate_channels (demoCli false) demoParsed demoMissingOnce demoFS (by decide)
      (by decide)).2.2.2.1 ⟨"c0ffee", ["low disk space"]⟩ rfl).2.1, by decide⟩

/-- C7 fails on the code with trust mode active: in `docker create alpine:latest` on an
engine that misses the image once, the tag operation of the recovery path (line 164) runs
inside `createContainer` and writes its `Tagging` line to `cli.out`, so that `cli.out`
receives two lines, of which the ID is the second; and when the retried create request
fails too, `CmdCreate` returns its error and `cli.out` has received the `Tagging` line. -/
theorem CmdCreate_tagging_on_out :
    (CmdCreate demoCliTagging (.ok demoParsed) demoMissingOnce demoFS).result = .done ∧
      written Chan.out (CmdCreate demoCliTagging (.ok demoParsed) demoMissingOnce demoFS).trace
        = ["Tagging alpine@sha256:abc as alpine:latest\n", "c0ffee\n"] ∧
      written Chan.out
          (createContainer demoCliTagging demoParsed.createConfig demoMissingOnce demoFS).trace
        = ["Tagging alpine@sha256:abc as alpine:latest\n"] ∧
      (CmdCreate demoCliTagging (.ok demoParsed) demoMissingTwice demoFS).result
        = .error "No such image: alpine:latest (still)" ∧
      written Chan.out (CmdCreate demoCliTagging (.ok demoParsed) demoMissingTwice demoFS).trace
        = ["Tagging alpine@sha256:abc as alpine:latest\n"] :=
  ⟨rfl, by decide, by decide, rfl, by decide⟩

/-! ### Errors after a create request that succeeded -/

theorem newCIDFile_ok {fs fs0 : FS} {path : String} {c : cidFile}
    (h : newCIDFile fs path = (.ok c, fs0)) :
    c.file = path ∧ path ≠ "" ∧ fs0.writeErr = fs.writeErr := by
  unfold newCIDFile at h
  split at h
  · cases h
  · split at h
    · cases h
    · rename_i fs1 heq
      simp only [Prod.mk.injEq, Except.ok.injEq] at h
      obtain ⟨rfl, rfl⟩ := h
      unfold os.Create at heq
      split at heq
      · cases heq
      · rename_i hne
        split at heq
        · cases heq
        · simp only [Except.ok.injEq] at heq
          subst heq
          exact ⟨rfl, hne, rfl⟩

theorem cidFile.Write_ok {c c1 : cidFile} {fs fs1 : FS} {id : String}
    (h : c.Write fs id = .ok (c1, fs1)) (hne : c.file ≠ "") :
    fs1.files c.file = some id := by
  unfold cidFile.Write at h
  split at h
  next e1 he => cases h
  next =>
    simp only [Except.ok.injEq, Prod.mk.injEq] at h
    obtain ⟨-, rfl⟩ := h
    simp [hne]

theorem FinishShape.error_cases {L : Lib} {body : L.Body} {cid : Option cidFile} {fs : FS}
    {o : Outcome} {tr : List (Event L)} {fs1 : FS} (h : FinishShape body cid fs o tr fs1)
    (e : Err) (ho : o = .error e) :
    L.Decode body = .error e ∨
      (∃ resp c, L.Decode body = .ok resp ∧ cid = some c ∧ c.Write fs resp.ID = .error e) := by
  cases h with
  | decodeError e1 hd ho1 ht hf =>
    rw [ho1] at ho
    cases ho
    exact Or.inl hd
  | writeError resp c e1 hd hc hw ho1 ht hf =>
    rw [ho1] at ho
    cases ho
    exact Or.inr ⟨resp, c, hd, hc, hw⟩
  | okNoFile resp hd hc ho1 ht hf => rw [ho1] at ho; cases ho
  | okFile resp c c1 hd hc hw ho1 ht => rw [ho1] at ho; cases ho

theorem BodyShape.error_after_create {L : Lib} {cfg : createConfig} {cid : Option cidFile}
    {fs : FS} {o : Outcome} {tr : List (Event L)} {fs1 : FS}
    (h : BodyShape cfg cid fs o tr fs1) (e : Err) (ho : o = .error e) :
    ∀ c ∈ creates tr, c.failure = none →
      ∃ b, c.body = some b ∧
        (L.Decode b = .error e ∨
          ∃ resp c0, L.Decode b = .ok resp ∧ cid = some c0 ∧
            c0.Write fs resp.ID = .error e) := by
  have hp := pullingEvent_quiet L cfg.config.Image
  have hk := Event.quiet_kinds hp
  intro c hc hfail
  cases h with
  | trustError wr e1 h1 h2 h3 ho1 ht hf =>
    subst ht
    simp [creates] at hc
  | trustNil wr h1 h2 h3 ho1 ht hf =>
    subst ht
    simp [creates] at hc
  | pullError e1 tl h1 h2 hq ho1 ht hf =>
    subst ht
    rw [creates_avoids (by simp [hk, hq.avoids_isCreate])] at hc
    cases hc
  | nilError E tref1 image1 b0 hE ho1 ht hf => rw [ho1] at ho; cases ho
  | createError E tref1 image1 status e1 b0 hE hn ho1 ht hf =>
    subst ht
    rw [creates_append, creates_avoids (hE.avoidsE hp).1, creates_call,
      creates_avoids (avoids_nil _)] at hc
    simp only [List.nil_append, List.mem_singleton] at hc
    subst hc
    cases hfail
  | created E tref1 image1 status body F hE hs hF ht =>
    subst ht
    rw [creates_append, creates_avoids (hE.avoidsE hp).1, creates_call,
      creates_avoids hF.quiet.avoids_isCreate] at hc
    simp only [List.nil_append, List.mem_singleton] at hc
    subst hc
    exact ⟨body, rfl, hF.error_cases e ho⟩
  | recovered E tref1 image1 e1 b0 R hE hc1 hR ht =>
    subst ht
    rcases (hR.cut (unableEvent_quiet L cfg.config.Image)).2 with hRa |
      ⟨pre, image2, status, err, body2, F, hRe, hpre, hpull, hF, h1, h2⟩
    · rw [creates_append, creates_avoids (hE.avoidsE hp).1, creates_call,
        creates_avoids hRa] at hc
      simp only [List.nil_append, List.mem_singleton] at hc
      subst hc
      cases hfail
    · subst hRe
      rw [creates_append, creates_avoids (hE.avoidsE hp).1, creates_call, creates_append,
        creates_avoids hpre, creates_call, creates_avoids hF.avoids_isCreate] at hc
      simp only [List.nil_append, List.mem_cons, List.mem_singleton, List.not_mem_nil,
        or_false] at hc
      rcases hc with rfl | rfl
      · cases hfail
      · exact ⟨body2, rfl, (h2 hfail).error_cases e ho⟩

/-- C8, as the code has it: a run of `createContainer` that returns a response has had a
create request succeed whose body decoded to that response, and when a container ID file
was asked for, the write of the response's ID to the file opened by `newCIDFile` has
returned no error and the file holds that ID.  A run that returns an error after a create
request succeeded returns the error of decoding the body of that request or, the body
decoded, the error of writing its ID to the container ID file; any other error return
means that no create request of the run succeeded. -/
theorem createContainer_outcome {L : Lib} {σ : Type} (cli : DockerCli L σ)
    (cfg : createConfig) (w : σ) (fs : FS) :
    (∀ resp, (createContainer cli cfg w fs).result = .ok resp →
        (∃ c ∈ creates (createContainer cli cfg w fs).trace,
          c.failure = none ∧ ∃ b, c.body = some b ∧ L.Decode b = .ok resp) ∧
        (cfg.cidfile ≠ "" →
          (∃ c fs0 c1, newCIDFile fs cfg.cidfile = (.ok c, fs0) ∧
            c.Write fs0 resp.ID = .ok (c1, (createContainer cli cfg w fs).st.fs)) ∧
          (createContainer cli cfg w fs).st.fs.files cfg.cidfile = some resp.ID)) ∧
      (∀ e, (createContainer cli cfg w fs).result = .error e →
        ∀ c ∈ creates (createContainer cli cfg w fs).trace, c.failure = none →
          ∃ b, c.body = some b ∧
            (L.Decode b = .error e ∨
              ∃ resp c0 fs0, L.Decode b = .ok resp ∧ cfg.cidfile ≠ "" ∧
                newCIDFile fs cfg.cidfile = (.ok c0, fs0) ∧
                c0.Write fs0 resp.ID = .error e)) := by
  refine ⟨?_, ?_⟩
  · intro resp ho
    obtain ⟨cid, fs0, ⟨pre, image, status, body, h1, h2, h3, h4, h5⟩, hcid⟩ :=
      createContainer_ok_run cli cfg w fs resp ho
    refine ⟨⟨Event.call "POST" (createPath L cfg.name)
      (mergedConfig L cfg image) image status none body, ?_, rfl,
      body, rfl, h3⟩, ?_⟩
    · rw [h1]
      simp [creates]
    · intro hne
      rcases hcid with ⟨h0, -, -⟩ | ⟨-, c, hc, hg⟩
      · exact absurd h0 hne
      · obtain ⟨c1, hw⟩ := h5 c hc
        obtain ⟨g1, g2, -⟩ := newCIDFile_ok hg
        have := cidFile.Write_ok hw (by rw [g1]; exact g2)
        rw [g1] at this
        exact ⟨⟨c, fs0, c1, hg, hw⟩, this⟩
  · intro e ho c hc hfail
    cases createContainer_shape cli cfg w fs with
    | noFile hc1 hB =>
      obtain ⟨b, hb, h | ⟨resp, c0, -, h, -⟩⟩ := hB.error_after_create e ho c hc hfail
      · exact ⟨b, hb, Or.inl h⟩
      · cases h
    | guardError e1 hc1 hg ho1 ht hf =>
      rw [ht] at hc
      simp [creates] at hc
    | withFile c1 fs0 hc1 hg hB =>
      obtain ⟨b, hb, h | ⟨resp, c0, hd, h, hw⟩⟩ := hB.error_after_create e ho c hc hfail
      · exact ⟨b, hb, Or.inl h⟩
      · cases h
        exact ⟨b, hb, Or.inr ⟨resp, c1, fs0, hd, hc1, hg, hw⟩⟩

/-- Example `docker create --cidfile /tmp/new alpine:latest`: the new file holds the ID. -/
theorem createContainer_outcome_witness :
    (createContainer (demoCli false) (demoConfig false "/tmp/new") demoMissingOnce
      demoFS).st.fs.files "/tmp/new" = some "c0ffee" :=
  (((createContainer_outcome (demoCli false) (demoConfig false "/tmp/new") demoMissingOnce
    demoFS).1 ⟨"c0ffee", ["low disk space"]⟩ rfl).2 (by decide)).2

/-- C8 as stated fails when the response body does not decode: the create request has
succeeded on the engine, and `createContainer` returns an error. -/
theorem createContainer_outcome_counterexample :
    (createContainer (demoCli false) (demoConfig false "") demoGarbled demoFS).result
        = .error "unexpected EOF" ∧
      ∃ c ∈ creates (createContainer (demoCli false) (demoConfig false "") demoGarbled
        demoFS).trace, c.failure = none :=
  ⟨rfl, by decide⟩

/-! ### The order of pull, tag and retry -/

theorem beforeTag_tag {L : Lib} {pre : List (Event L)} (h : Avoids Event.isTag pre)
    (ri : L.RepoInfo) (t ref : L.Ref) (res : Option Err) (wr : List (Chan × String))
    (l : List (Event L)) :
    beforeTag (pre ++ Event.tagTrusted ri t ref res wr :: l) = pre := by
  unfold beforeTag
  rw [List.takeWhile_append_of_pos (fun e he => by simp [h e he])]
  simp [List.takeWhile_cons]

theorem afterTag_tag {L : Lib} {pre : List (Event L)} (h : Avoids Event.isTag pre)
    (ri : L.RepoInfo) (t ref : L.Ref) (res : Option Err) (wr : List (Chan × String))
    (l : List (Event L)) :
    afterTag (pre ++ Event.tagTrusted ri t ref res wr :: l) = l := by
  unfold afterTag
  rw [List.dropWhile_append_of_pos (fun e he => by simp [h e he])]
  simp [List.dropWhile_cons]

theorem mem_tag_unique {L : Lib} {pre post : List (Event L)} (h1 : Avoids Event.isTag pre)
    (h2 : Avoids Event.isTag post) (x g : Event L) (hg : g ∈ pre ++ x :: post)
    (hi : g.isTag = true) : g = x := by
  simp only [List.mem_append, List.mem_cons] at hg
  rcases hg with hg | hg | hg
  · exact absurd hg (h1.not_mem hi)
  · exact hg
  · exact absurd hg (h2.not_mem hi)

theorem RecoverShape.tag_orderR {L : Lib} {path : String} {d : String → L.Merged} {repo : String}
    {ref : L.Ref} {diag : Event L} {image0 : String} {tref0 : Option L.Ref}
    {cid : Option cidFile} {fs : FS} {o : Outcome} {tr : List (Event L)} {fs1 : FS}
    (hd : diag.quiet = true)
    (h : RecoverShape path d repo ref diag image0 tref0 cid fs o tr fs1)
    (g : Event L) (hg : g ∈ tr) (hi : g.isTag = true) :
    (∃ image, Event.pull image Chan.err none ∈ beforeTag tr) ∧
      Avoids Event.isCreate (beforeTag tr) ∧
      Avoids Event.isPull (afterTag tr) ∧ Avoids Event.isTag (afterTag tr) ∧
      (g.tagFailure = none → ∃ c, (afterTag tr).head? = some c ∧ c.isCreate = true) ∧
      (∀ e, g.tagFailure = some e → afterTag tr = [] ∧ o = .error e) := by
  have hk := Event.quiet_kinds hd
  cases h with
  | trustError wr e h1 h2 h3 ho ht hf =>
    subst ht
    exact absurd hg (Avoids.not_mem (by simp [hk]) hi)
  | trustNil wr h1 h2 h3 ho ht hf =>
    subst ht
    exact absurd hg (Avoids.not_mem (by simp [hk]) hi)
  | pullError T tref1 image1 e tl hT hq ho ht hf =>
    subst ht
    exact absurd hg (Avoids.not_mem (by simp [hk, hT.avoidsT.2.2.1, hq.avoids_isTag]) hi)
  | repoInfoError T tref1 image1 tl t e hT hq h1 h2 h3 ho ht hf =>
    subst ht
    exact absurd hg (Avoids.not_mem (by simp [hk, hT.avoidsT.2.2.1, hq.avoids_isTag]) hi)
  | tagError wr T tref1 image1 tl t ri e hT hq h1 h2 h3 ho ht hf =>
    have hpre : Avoids Event.isTag (diag :: (T ++ Event.pull image1 Chan.err none :: tl)) := by
      simp [hk, hT.avoidsT.2.2.1, hq.avoids_isTag]
    have hpc : Avoids Event.isCreate (diag :: (T ++ Event.pull image1 Chan.err none :: tl)) := by
      simp [hk, hT.avoidsT.1, hq.avoids_isCreate]
    have ht2 : tr = (diag :: (T ++ Event.pull image1 Chan.err none :: tl)) ++
        Event.tagTrusted ri t ref (some e) wr :: [] := by
      rw [ht]; simp
    subst ht2
    have hge := mem_tag_unique hpre (avoids_nil _) _ g hg hi
    subst hge
    rw [beforeTag_tag hpre, afterTag_tag hpre]
    refine ⟨⟨image1, by simp⟩, hpc, by simp, by simp, ?_, ?_⟩
    · intro h
      cases h
    · intro e1 he1
      cases he1
      exact ⟨rfl, ho⟩
  | retried T tref1 image1 tl G R hT hq hG hR ht =>
    have hpre : Avoids Event.isTag (diag :: (T ++ Event.pull image1 Chan.err none :: tl)) := by
      simp [hk, hT.avoidsT.2.2.1, hq.avoids_isTag]
    have hpc : Avoids Event.isCreate (diag :: (T ++ Event.pull image1 Chan.err none :: tl)) := by
      simp [hk, hT.avoidsT.1, hq.avoids_isCreate]
    cases hG with
    | skip hn hG0 =>
      subst hG0 ht
      exact absurd hg (Avoids.not_mem
        (by simp [hk, hT.avoidsT.2.2.1, hq.avoids_isTag, hR.avoidsR.2.2.1]) hi)
    | tagged wr t ri h1 h2 h3 hG0 =>
      have ht2 : tr = (diag :: (T ++ Event.pull image1 Chan.err none :: tl)) ++
          Event.tagTrusted ri t ref none wr :: R := by
        rw [ht, hG0]; simp
      subst ht2
      have hge := mem_tag_unique hpre hR.avoidsR.2.2.1 _ g hg hi
      subst hge
      rw [beforeTag_tag hpre, afterTag_tag hpre]
      refine ⟨⟨image1, by simp⟩, hpc, hR.avoidsR.1, hR.avoidsR.2.2.1, ?_, ?_⟩
      · intro _
        obtain ⟨status, err, body, F, hRe, -, -, -⟩ := hR.cutR
        subst hRe
        exact ⟨_, rfl, rfl⟩
      · intro e1 he1
        cases he1

theorem BodyShape.tag_orderB {L : Lib} {cfg : createConfig} {cid : Option cidFile}
    {fs : FS} {o : Outcome} {tr : List (Event L)} {fs1 : FS}
    (h : BodyShape cfg cid fs o tr fs1) (g : Event L) (hg : g ∈ tr) (hi : g.isTag = true) :
    TagInOrder o tr g := by
  have hp := pullingEvent_quiet L cfg.config.Image
  have hk := Event.quiet_kinds hp
  cases h with
  | trustError wr e h1 h2 h3 ho ht hf =>
    subst ht
    exact absurd hg (Avoids.not_mem (by simp) hi)
  | trustNil wr h1 h2 h3 ho ht hf =>
    subst ht
    exact absurd hg (Avoids.not_mem (by simp) hi)
  | pullError e tl h1 h2 hq ho ht hf =>
    subst ht
    exact absurd hg (Avoids.not_mem (by simp [hk, hq.avoids_isTag]) hi)
  | nilError E tref1 image1 b0 hE ho ht hf =>
    subst ht
    exact absurd hg (Avoids.not_mem (by simp [(hE.avoidsE hp).2.1]) hi)
  | createError E tref1 image1 status e b0 hE hn ho ht hf =>
    subst ht
    exact absurd hg (Avoids.not_mem (by simp [(hE.avoidsE hp).2.1]) hi)
  | created E tref1 image1 status body F hE hs hF ht =>
    subst ht
    exact absurd hg (Avoids.not_mem (by simp [(hE.avoidsE hp).2.1, hF.quiet.avoids_isTag]) hi)
  | recovered E tref1 image1 e b0 R hE hc hR ht =>
    subst ht
    have hgR : g ∈ R := by
      simp only [List.mem_append, List.mem_cons] at hg
      rcases hg with hg | hg | hg
      · exact absurd hg ((hE.avoidsE hp).2.1.not_mem hi)
      · subst hg
        cases hi
      · exact hg
    obtain ⟨r1, r0, r2, r3, r4, r5⟩ :=
      hR.tag_orderR (unableEvent_quiet L cfg.config.Image) g hgR hi
    have hb : beforeTag (E ++ Event.call "POST" (createPath L cfg.name)
          (mergedConfig L cfg image1) image1 404 (some e) b0 :: R)
        = E ++ Event.call "POST" (createPath L cfg.name)
          (mergedConfig L cfg image1) image1 404 (some e) b0 :: beforeTag R := by
      unfold beforeTag
      rw [List.takeWhile_append_of_pos (fun x hx => by simp [(hE.avoidsE hp).2.1 x hx])]
      simp [List.takeWhile_cons]
    have ha : afterTag (E ++ Event.call "POST" (createPath L cfg.name)
          (mergedConfig L cfg image1) image1 404 (some e) b0 :: R)
        = afterTag R := by
      unfold afterTag
      rw [List.dropWhile_append_of_pos (fun x hx => by simp [(hE.avoidsE hp).2.1 x hx])]
      simp [List.dropWhile_cons]
    refine ⟨?_, ?_, ?_, ?_, ?_⟩
    · rw [hb, afterFirstCreate_call (hE.avoidsE hp).1]
      exact r1
    · rw [ha]; exact r2
    · rw [ha]; exact r3
    · rw [ha]; exact r4
    · rw [ha]; exact r5

theorem RecoverShape.tag_performedR {L : Lib} {path : String} {d : String → L.Merged} {repo : String}
    {ref : L.Ref} {diag : Event L} {image0 : String} {tref0 : Option L.Ref}
    {cid : Option cidFile} {fs : FS} {o : Outcome} {tr : List (Event L)} {fs1 : FS}
    (hd : diag.quiet = true)
    (h : RecoverShape path d repo ref diag image0 tref0 cid fs o tr fs1)
    (h1 : L.isTrusted = true) (h2 : L.HasDigest ref = false)
    (h3 : ∃ ri, L.ParseRepositoryInfo repo = .ok ri)
    (h4 : ∃ image, Event.pull image Chan.err none ∈ tr) : ∃ g ∈ tr, g.isTag = true := by
  have hk := Event.quiet_kinds hd
  obtain ⟨image, h4⟩ := h4
  have hnp : ∀ {T tref1 image1}, TrustShape repo ref image0 tref0 T tref1 image1 →
      Event.pull image Chan.err none ∉ T ∧ tref1 ≠ none := by
    intro T tref1 image1 hT
    refine ⟨hT.avoidsT.2.1.not_mem rfl, ?_⟩
    cases hT with
    | skip hn hT ht hi =>
      subst ht
      intro h0
      exact hn ⟨h1, h2, h0⟩
    | resolved wr t _ _ _ hT ht hi => simp [ht]
  have hdp : Event.pull image Chan.err none ≠ diag := by
    intro h
    rw [← h] at hk
    cases hk.2.1
  cases h with
  | trustError wr e _ _ _ ho ht hf =>
    subst ht
    simp [hdp] at h4
  | trustNil wr _ _ _ ho ht hf =>
    subst ht
    simp [hdp] at h4
  | pullError T tref1 image1 e tl hT hq ho ht hf =>
    subst ht
    simp [hdp, (hnp hT).1, hq.avoids_isPull.not_mem (Event.isPull_pull image Chan.err none)]
      at h4
  | repoInfoError T tref1 image1 tl t e hT hq _ _ h5 ho ht hf =>
    obtain ⟨ri, h3⟩ := h3
    rw [h3] at h5
    cases h5
  | tagError wr T tref1 image1 tl t ri e hT hq _ _ _ ho ht hf =>
    subst ht
    exact ⟨Event.tagTrusted ri t ref (some e) wr, by simp, rfl⟩
  | retried T tref1 image1 tl G R hT hq hG hR ht =>
    subst ht
    cases hG with
    | skip hn hG0 =>
      rcases hn with hn | hn
      · exact absurd hn (hnp hT).2
      · rw [h2] at hn
        cases hn
    | tagged wr t ri _ _ _ hG0 =>
      subst hG0
      exact ⟨Event.tagTrusted ri t ref none wr, by simp, rfl⟩

theorem BodyShape.tag_performedB {L : Lib} {cfg : createConfig} {cid : Option cidFile}
    {fs : FS} {o : Outcome} {tr : List (Event L)} {fs1 : FS}
    (h : BodyShape cfg cid fs o tr fs1)
    (h1 : L.isTrusted = true) (h2 : L.HasDigest (parsedRef L cfg.config.Image) = false)
    (h3 : ∃ ri, L.ParseRepositoryInfo (parsedRepo L cfg.config.Image) = .ok ri)
    (h4 : ∃ image, Event.pull image Chan.err none ∈ afterFirstCreate tr) :
    ∃ g ∈ afterFirstCreate tr, g.isTag = true := by
  have hp := pullingEvent_quiet L cfg.config.Image
  have hk := Event.quiet_kinds hp
  obtain ⟨image, h4⟩ := h4
  cases h with
  | trustError wr e _ _ _ ho ht hf =>
    subst ht
    rw [afterFirstCreate_avoids (by simp)] at h4
    cases h4
  | trustNil wr _ _ _ ho ht hf =>
    subst ht
    rw [afterFirstCreate_avoids (by simp)] at h4
    cases h4
  | pullError e tl _ _ hq ho ht hf =>
    subst ht
    rw [afterFirstCreate_avoids (by simp [hk, hq.avoids_isCreate])] at h4
    cases h4
  | nilError E tref1 image1 b0 hE ho ht hf =>
    subst ht
    rw [afterFirstCreate_call (hE.avoidsE hp).1] at h4
    cases h4
  | createError E tref1 image1 status e b0 hE hn ho ht hf =>
    subst ht
    rw [afterFirstCreate_call (hE.avoidsE hp).1] at h4
    cases h4
  | created E tref1 image1 status body F hE hs hF ht =>
    subst ht
    rw [afterFirstCreate_call (hE.avoidsE hp).1] at h4
    exact absurd h4 (hF.quiet.avoids_isPull.not_mem (Event.isPull_pull image Chan.err none))
  | recovered E tref1 image1 e b0 R hE hc hR ht =>
    subst ht
    rw [afterFirstCreate_call (hE.avoidsE hp).1] at h4 ⊢
    exact hR.tag_performedR (unableEvent_quiet L cfg.config.Image) h1 h2 h3 ⟨image, h4⟩

/-- C9, as the code has it: whenever `createContainer` performs the trusted tag operation,
trust mode is active and the reference has no digest, the recovery pull has been issued
before the tag operation and has succeeded, no pull follows the tag operation, the
retried create request is what comes next when the tag operation succeeds, and when it
fails the run ends there with its error.  And with trust mode active and no digest, once
the recovery pull has succeeded the tag operation is performed, provided the repository
name parses.  The order is: resolve, pull, tag, create. -/
theorem createContainer_tag_after_pull {L : Lib} {σ : Type} (cli : DockerCli L σ)
    (cfg : createConfig) (w : σ) (fs : FS) :
    (∀ g ∈ (createContainer cli cfg w fs).trace, g.isTag = true →
      (L.isTrusted = true ∧ L.HasDigest (parsedRef L cfg.config.Image) = false) ∧
      TagInOrder (createContainer cli cfg w fs).result
        (createContainer cli cfg w fs).trace g) ∧
    (L.isTrusted = true → L.HasDigest (parsedRef L cfg.config.Image) = false →
      (∃ ri, L.ParseRepositoryInfo (parsedRepo L cfg.config.Image) = .ok ri) →
      (∃ image, Event.pull image Chan.err none ∈
        afterFirstCreate (createContainer cli cfg w fs).trace) →
      ∃ g ∈ afterFirstCreate (createContainer cli cfg w fs).trace, g.isTag = true) := by
  refine ⟨?_, ?_⟩
  · intro g hg hi
    refine ⟨?_, ?_⟩
    · by_contra hn
      exact ((createContainer_shape cli cfg w fs).trust.1 hn).2.not_mem hi hg
    cases createContainer_shape cli cfg w fs with
    | noFile hc hB => exact hB.tag_orderB g hg hi
    | guardError e hc hg1 ho ht hf =>
      rw [ht] at hg
      cases hg
    | withFile c fs0 hc hg1 hB => exact hB.tag_orderB g hg hi
  · intro h1 h2 h3 h4
    cases createContainer_shape cli cfg w fs with
    | noFile hc hB => exact hB.tag_performedB h1 h2 h3 h4
    | guardError e hc hg1 ho ht hf =>
      rw [ht] at h4
      obtain ⟨image, h4⟩ := h4
      cases h4
    | withFile c fs0 hc hg1 hB => exact hB.tag_performedB h1 h2 h3 h4

/-- With trust mode active, `docker create alpine:latest` on an engine that misses the
image once: the tag operation comes after the pull and before the retried create request. -/
theorem createContainer_tag_after_pull_witness :
    TagInOrder
      (createContainer (demoCli true) (demoConfig false "") demoMissingOnce demoFS).result
      (createContainer (demoCli true) (demoConfig false "") demoMissingOnce demoFS).trace
      (Event.tagTrusted "alpine" "sha256:abc" "latest" none []) :=
  ((createContainer_tag_after_pull (demoCli true) (demoConfig false "") demoMissingOnce
      demoFS).1
    (Event.tagTrusted "alpine" "sha256:abc" "latest" none [])
    (by
      rw [show (createContainer (demoCli true) (demoConfig false "") demoMissingOnce demoFS).trace
        = [Event.call "POST" "/containers/create?" (⟨"alpine:latest", ""⟩, ⟨"", ""⟩)
             "alpine:latest" 404 (some "No such image: alpine:latest") none,
           Event.write Chan.err "Unable to find image 'alpine:latest' locally\n",
           Event.trustedReference "alpine" "latest" (.ok (some "sha256:abc")) [],
           Event.pull "alpine@sha256:abc" Chan.err none,
           Event.stream "POST" "/images/create?fromImage=alpine&tag=sha256:abc"
             [("X-Registry-Auth", ["{}"])] Chan.err,
           Event.write Chan.err "Pulling from library/alpine\n",
           Event.tagTrusted "alpine" "sha256:abc" "latest" none [],
           Event.call "POST" "/containers/create?" (⟨"alpine@sha256:abc", ""⟩, ⟨"", ""⟩)
             "alpine@sha256:abc" 201 none (some ⟨"c0ffee", ["low disk space"]⟩),
           Event.write Chan.err "WARNING: low disk space\n"] from rfl]
      simp)
    rfl).2

/-- C9 as stated fails: with trust mode active and no digest, the recovery path resolves
the trusted reference, pulls, and only then tags; the tag operation has a pull before it
and none after it. -/
theorem createContainer_tag_after_pull_counterexample :
    (demoLib true).isTrusted = true ∧
      (demoLib true).HasDigest (parsedRef (demoLib true) (demoConfig false "").config.Image)
        = false ∧
      (∃ g ∈ (createContainer (demoCli true) (demoConfig false "") demoMissingOnce demoFS).trace,
        g.isTag = true) ∧
      (∃ e ∈ beforeTag
        (createContainer (demoCli true) (demoConfig false "") demoMissingOnce demoFS).trace,
        e.isPull = true) ∧
      (∀ e ∈ afterTag
        (createContainer (demoCli true) (demoConfig false "") demoMissingOnce demoFS).trace,
        e.isPull = false) := by
  decide

/-! ## The pull behaviour -/

/-- C10, as the code has it: for each of the three declared values of `PullBehavior`
(`PullNever`, `PullAlways`, `PullMissing`), `ParsePullBehavior(p.String())` returns `p`
and no error; and for every string `s` other than the empty one that
`ParsePullBehavior` accepts with value `p`, `p.String()` is `s`. -/
theorem ParsePullBehavior_roundtrip :
    (∀ p : PullBehavior, (p = PullNever ∨ p = PullAlways ∨ p = PullMissing) →
        ParsePullBehavior (PullBehavior.String p) = (p, none)) ∧
      (∀ (s : String) (p : PullBehavior), s ≠ "" → ParsePullBehavior s = (p, none) →
        PullBehavior.String p = s) := by
  refine ⟨?_, ?_⟩
  · rintro p (rfl | rfl | rfl) <;> decide
  · intro s p hs h
    unfold ParsePullBehavior at h
    split at h
    next h1 =>
      cases h
      rw [h1]
      decide
    next h1 =>
      split at h
      next h2 =>
        cases h
        rw [h2]
        decide
      next h2 =>
        split at h
        next h3 =>
          cases h
          rcases h3 with h3 | h3
          · rw [h3]
            decide
          · exact absurd h3 hs
        next h3 => cases h

/-- Example: `always` and `missing` go round. -/
theorem ParsePullBehavior_roundtrip_witness :
    ParsePullBehavior (PullBehavior.String PullAlways) = (PullAlways, none) ∧
      PullBehavior.String PullMissing = "missing" :=
  ⟨ParsePullBehavior_roundtrip.1 PullAlways (Or.inr (Or.inl rfl)),
    ParsePullBehavior_roundtrip.2 "missing" PullMissing (by decide) (by decide)⟩

/-- C10 as stated fails at a value of `PullBehavior` that is none of the declared three:
`PullBehavior(3).String()` is the empty string, which parses to `PullMissing`. -/
theorem ParsePullBehavior_roundtrip_counterexample :
    PullBehavior.String 3 = "" ∧ ParsePullBehavior (PullBehavior.String 3) = (PullMissing, none) ∧
      ParsePullBehavior (PullBehavior.String 3) ≠ (3, none) := by
  decide

end Docker
